import Mathlib

/-!
Detection layer (`src/detection_layer.c`): a shallow embedding.

The C functions `make_detection_layer`, `forward_detection_layer`,
`get_detection_boxes` and `get_detection_detections` are rendered as pure Lean
functions.

* `float` values are exact rationals (`ℚ`); NaN, infinities and rounding are
  outside the model.
* `float*` buffers are total maps `Int → ℚ` indexed by element offset; a write
  `p[k] = v` is `store p k v`.  A layer is passed by value but its buffers are
  reached through pointers, so a function that writes them returns the layer
  with the new buffer contents.
* `int` values are `Int`.  The constructor's check is done in 32-bit wrapping
  arithmetic (`int_add`, `int_mul`); offsets inside the buffers are computed in
  `Int` directly, buffers being far smaller than `2^31` elements.
* Functions that live in other files of the repository or in libc
  (`box_iou`, `box_rmse`, `softmax`, `sqrt`, `rand`) are fields of `collab`,
  over which every definition is parametric.
-/

namespace Darknet

/-! ## Machine integers -/

/-- Smallest value of a C `int`. -/
def INT_MIN : Int := -2147483648

/-- Largest value of a C `int`. -/
def INT_MAX : Int := 2147483647

/-- Membership in the range of a C `int`. -/
def is_int (x : Int) : Prop := INT_MIN ≤ x ∧ x ≤ INT_MAX

instance is_int_decidable (x : Int) : Decidable (is_int x) := by
  unfold is_int; exact inferInstance

/-- Reduction of a mathematical integer to its 32-bit two's complement value. -/
def wrap32 (x : Int) : Int := (x + 2147483648) % 4294967296 - 2147483648

/-- The C expression `a + b` on `int` operands. -/
def int_add (a b : Int) : Int := wrap32 (a + b)

/-- The C expression `a * b` on `int` operands. -/
def int_mul (a b : Int) : Int := wrap32 (a * b)

/-- Conversion `float → int` (truncation toward zero), as in `int is_obj = state.truth[...]`. -/
def float_to_int (q : ℚ) : Int := if 0 ≤ q then ⌊q⌋ else ⌈q⌉

/-! ## Buffers and loops -/

/-- The assignment `p[k] = v` on a buffer. -/
def store {α : Type} (p : Int → α) (k : Int) (v : α) : Int → α :=
  fun t => if t = k then v else p t

/-- The assignment `p[r][c] = v` on an array of rows (`float **`). -/
def store2 (p : Int → Int → ℚ) (r c : Int) (v : ℚ) : Int → Int → ℚ :=
  fun t u => if t = r ∧ u = c then v else p t u

/-- The loop `for (j = 0; j < N; ++j) body`, run on state `s`; `N` is given as a natural
number (`Int.toNat` of the C bound, so a bound `≤ 0` runs no iteration). -/
def for_loop {σ : Type} : Nat → (Nat → σ → σ) → σ → σ
  | 0, _, s => s
  | k + 1, body, s => body k (for_loop k body s)

/-! ## Data model -/

/-- The struct `box` (`box.h`): centre, width, height. -/
structure box where
  x : ℚ
  y : ℚ
  w : ℚ
  h : ℚ
deriving DecidableEq

/-- Modelled from the spec: `float_to_box` of `box.c`, which is not part of this file; it reads
the quadruple (cx, cy, w, h) found at a buffer offset. -/
def float_to_box (f : Int → ℚ) (off : Int) : box :=
  { x := f off, y := f (off + 1), w := f (off + 2), h := f (off + 3) }

/-- Functions the layer calls but does not define. `box_iou` and `box_rmse` come from `box.c`,
`softmax` from `blas.c` (it rewrites `n` entries of a buffer from a given offset), `sqrtf` is
the C library square root and `rand k` is the value of the `k`-th call of `rand()`, which is
never negative. -/
structure collab where
  box_iou : box → box → ℚ
  box_rmse : box → box → ℚ
  softmax : (Int → ℚ) → Int → Int → (Int → ℚ)
  sqrtf : ℚ → ℚ
  rand : Nat → Nat

/-- The fields of `detection_layer` (`layer`) that this file reads or writes. -/
structure detection_layer where
  batch : Int
  inputs : Int
  outputs : Int
  truths : Int
  n : Int
  side : Int
  w : Int
  h : Int
  classes : Int
  coords : Int
  rescore : Int
  softmax : Int
  sqrt : Int
  forced : Int
  random : Int
  noobject_scale : ℚ
  object_scale : ℚ
  class_scale : ℚ
  coord_scale : ℚ
  cost : ℚ
  output : Int → ℚ
  delta : Int → ℚ

/-- The fields of `network_state` that the layer reads; `seen` is `*(state.net.seen)`. -/
structure network_state where
  input : Int → ℚ
  truth : Int → ℚ
  train : Int
  seen : Nat

/-! ## `make_detection_layer` -/

/-- The constructor. The `assert` aborts the program when it fails, rendered as `none`.
Fields not assigned by the constructor are zero (`detection_layer l = { 0 }`) and the two
`calloc`ed buffers hold zeros. -/
def make_detection_layer (batch inputs n side classes coords rescore : Int) :
    Option detection_layer :=
  if int_mul (int_mul side side) (int_add (int_mul (int_add 1 coords) n) classes) = inputs then
    some
      { batch := batch
        inputs := inputs
        outputs := inputs
        truths := int_mul (int_mul side side) (int_add (int_add 1 coords) classes)
        n := n
        side := side
        w := side
        h := side
        classes := classes
        coords := coords
        rescore := rescore
        softmax := 0
        sqrt := 0
        forced := 0
        random := 0
        noobject_scale := 0
        object_scale := 0
        class_scale := 0
        coord_scale := 0
        cost := 0
        output := fun _ => 0
        delta := fun _ => 0 }
  else
    none

/-! ## `forward_detection_layer` -/

/-- The running sums and the gradient buffer that the training branch updates while it
walks the cells; `rand_calls` counts the calls of `rand()` made so far. -/
structure fwd_acc where
  delta : Int → ℚ
  avg_iou : ℚ
  avg_cat : ℚ
  avg_allcat : ℚ
  avg_obj : ℚ
  avg_anyobj : ℚ
  count : Int
  rand_calls : Nat

/-- The locals `best_index`, `best_iou`, `best_rmse` of the matching loop. -/
structure best_state where
  best_index : Int
  best_iou : ℚ
  best_rmse : ℚ

/-- Lines 56-68: `memcpy` of the input into `l.output`, then the optional soft-max over the
class scores of every cell of every batch element. -/
def forward_output (E : collab) (l : detection_layer) (state : network_state) : Int → ℚ :=
  let locations := l.side * l.side
  let copied : Int → ℚ :=
    fun k => if 0 ≤ k ∧ k < l.outputs * l.batch then state.input k else l.output k
  if l.softmax ≠ 0 then
    for_loop l.batch.toNat
      (fun b out =>
        let index := (b : Int) * l.inputs
        for_loop locations.toNat
          (fun i out =>
            let offset := (i : Int) * l.classes
            E.softmax out (index + offset) l.classes)
          out)
      copied
  else
    copied

/-- Lines 96-104: body of the loop that writes the no-object term of predictor `j`. -/
def noobj_body (l : detection_layer) (index locations i : Int) (j : Nat) (a : fwd_acc) :
    fwd_acc :=
  let p_index := index + locations * l.classes + i * l.n + j
  { a with
    delta := store a.delta p_index (l.noobject_scale * (0 - l.output p_index))
    avg_anyobj := a.avg_anyobj + l.output p_index }

/-- Lines 118-125: body of the classification loop for class `j`. -/
def class_body (l : detection_layer) (state : network_state) (class_index truth_index : Int)
    (j : Nat) (a : fwd_acc) : fwd_acc :=
  { a with
    delta := store a.delta (class_index + j)
      (l.class_scale * (state.truth (truth_index + 1 + j) - l.output (class_index + j)))
    avg_cat :=
      if state.truth (truth_index + 1 + j) ≠ 0 then a.avg_cat + l.output (class_index + j)
      else a.avg_cat
    avg_allcat := a.avg_allcat + l.output (class_index + j) }

/-- Lines 128-130: the ground-truth box of the cell, its centre divided by `side`. -/
def truth_box (l : detection_layer) (state : network_state) (truth_index : Int) : box :=
  let truth := float_to_box state.truth (truth_index + 1 + l.classes)
  { truth with x := truth.x / l.side, y := truth.y / l.side }

/-- Lines 134-142 and again 177-187: the box of predictor `j` of cell `i`, its centre divided
by `side` and its width and height squared under square-root encoding. -/
def decode_box (l : detection_layer) (index locations i j : Int) : box :=
  let box_index := index + locations * (l.classes + l.n) + (i * l.n + j) * l.coords
  let out := float_to_box l.output box_index
  let out := { out with x := out.x / l.side, y := out.y / l.side }
  if l.sqrt ≠ 0 then { out with w := out.w * out.w, h := out.h * out.h } else out

/-- Lines 150-160: the update of the running best for candidate `j` with the given IoU and
RMSE against the ground truth. -/
def select_step (iou rmse : ℚ) (j : Int) (s : best_state) : best_state :=
  if s.best_iou > 0 ∨ iou > 0 then
    if iou > s.best_iou then { s with best_iou := iou, best_index := j } else s
  else
    if rmse < s.best_rmse then { s with best_rmse := rmse, best_index := j } else s

/-- Lines 133-161: body of the matching loop. -/
def match_body (E : collab) (l : detection_layer) (index locations i : Int) (truth : box)
    (j : Nat) (s : best_state) : best_state :=
  let out := decode_box l index locations i j
  let iou := E.box_iou out truth
  let rmse := E.box_rmse out truth
  select_step iou rmse j s

/-- Lines 106-108 and 133-161: the matching loop run from its initial locals. -/
def match_loop (E : collab) (l : detection_layer) (index locations i : Int) (truth : box) :
    best_state :=
  for_loop l.n.toNat (match_body E l index locations i truth)
    { best_index := -1, best_iou := 0, best_rmse := 20 }

/-- Lines 164-170: the forced choice by ground-truth area. -/
def forced_index (l : detection_layer) (truth : box) (best_index : Int) : Int :=
  if l.forced ≠ 0 then
    if truth.w * truth.h < 1 / 10 then 1 else 0
  else best_index

/-- The condition of line 172. -/
def random_active (l : detection_layer) (state : network_state) : Prop :=
  l.random ≠ 0 ∧ state.seen < 64000

instance random_active_decidable (l : detection_layer) (state : network_state) :
    Decidable (random_active l state) := by
  unfold random_active; exact inferInstance

/-- Lines 172-174: the random choice during warm-up; `r` is the value `rand()` returns. -/
def random_index (l : detection_layer) (state : network_state) (r : Nat) (best_index : Int) :
    Int :=
  if random_active l state then Int.tmod r l.n else best_index

/-- The value of `best_index` at line 176 for cell `i` of the batch element that starts at
`index`, when `rand_calls` calls of `rand()` came before. -/
def cell_best_index (E : collab) (l : detection_layer) (state : network_state)
    (index locations i truth_index : Int) (rand_calls : Nat) : Int :=
  let truth := truth_box l state truth_index
  let best := match_loop E l index locations i truth
  let best_index := forced_index l truth best.best_index
  random_index l state (E.rand rand_calls) best_index

/-- Lines 176-213: what an object-bearing cell writes once `best_index` is known. -/
def matched_body (E : collab) (l : detection_layer) (state : network_state)
    (index locations i truth_index best_index : Int) (a : fwd_acc) : fwd_acc :=
  let truth := truth_box l state truth_index
  let box_index := index + locations * (l.classes + l.n) + (i * l.n + best_index) * l.coords
  let tbox_index := truth_index + 1 + l.classes
  let out := decode_box l index locations i best_index
  let iou := E.box_iou out truth
  let p_index := index + locations * l.classes + i * l.n + best_index
  let d := store a.delta p_index (l.object_scale * (1 - l.output p_index))
  let d := if l.rescore ≠ 0 then store d p_index (l.object_scale * (iou - l.output p_index))
    else d
  let d := store d (box_index + 0)
    (l.coord_scale * (state.truth (tbox_index + 0) - l.output (box_index + 0)))
  let d := store d (box_index + 1)
    (l.coord_scale * (state.truth (tbox_index + 1) - l.output (box_index + 1)))
  let d := store d (box_index + 2)
    (l.coord_scale * (state.truth (tbox_index + 2) - l.output (box_index + 2)))
  let d := store d (box_index + 3)
    (l.coord_scale * (state.truth (tbox_index + 3) - l.output (box_index + 3)))
  let d := if l.sqrt ≠ 0 then
      store
        (store d (box_index + 2)
          (l.coord_scale * (E.sqrtf (state.truth (tbox_index + 2)) - l.output (box_index + 2))))
        (box_index + 3)
        (l.coord_scale * (E.sqrtf (state.truth (tbox_index + 3)) - l.output (box_index + 3)))
    else d
  { a with
    delta := d
    avg_obj := a.avg_obj + l.output p_index
    avg_iou := a.avg_iou + iou
    count := a.count + 1 }

/-- Lines 87-214: body of the loop over the cells of batch element `b`. -/
def cell_body (E : collab) (l : detection_layer) (state : network_state) (b : Int) (i : Nat)
    (a : fwd_acc) : fwd_acc :=
  let locations := l.side * l.side
  let index := b * l.inputs
  let truth_index := (b * locations + i) * (1 + l.coords + l.classes)
  let is_obj := float_to_int (state.truth truth_index)
  let a := for_loop l.n.toNat (noobj_body l index locations i) a
  if is_obj = 0 then a
  else
    let class_index := index + i * l.classes
    let a := for_loop l.classes.toNat (class_body l state class_index truth_index) a
    let best_index := cell_best_index E l state index locations i truth_index a.rand_calls
    let a := if random_active l state then { a with rand_calls := a.rand_calls + 1 } else a
    matched_body E l state index locations i truth_index best_index a

/-- Lines 72-215: the training walk over all batch elements and cells, from the zeroed
gradient buffer. `l.output` is already the buffer after lines 56-68. -/
def train_loops (E : collab) (l : detection_layer) (state : network_state) : fwd_acc :=
  let locations := l.side * l.side
  let size := l.inputs * l.batch
  let zeroed : Int → ℚ := fun k => if 0 ≤ k ∧ k < size then 0 else l.delta k
  for_loop l.batch.toNat
    (fun b a => for_loop locations.toNat (cell_body E l state b) a)
    { delta := zeroed, avg_iou := 0, avg_cat := 0, avg_allcat := 0, avg_obj := 0,
      avg_anyobj := 0, count := 0, rand_calls := 0 }

/-- The sum `a[0]*a[0] + ... + a[n-1]*a[n-1]`. -/
def sum_squares (a : Int → ℚ) (n : Nat) : ℚ :=
  for_loop n (fun k s => s + a k * a k) 0

/-- Modelled from the spec: `mag_array` of `utils.c`, which is not part of this file; the
Euclidean norm of the first `n` entries, the square root of their sum of squares. -/
def mag_array (E : collab) (a : Int → ℚ) (n : Int) : ℚ :=
  E.sqrtf (sum_squares a n.toNat)

/-- The function `forward_detection_layer`: the layer as its buffers and cost stand after
the call. -/
def forward_detection_layer (E : collab) (l : detection_layer) (state : network_state) :
    detection_layer :=
  let l := { l with output := forward_output E l state }
  if state.train ≠ 0 then
    let a := train_loops E l state
    { l with
      delta := a.delta
      cost := (mag_array E a.delta (l.outputs * l.batch)) ^ 2 }
  else l

/-- The number of object-bearing cells (`count`) that a training call reports. -/
def forward_count (E : collab) (l : detection_layer) (state : network_state) : Int :=
  (train_loops E { l with output := forward_output E l state } state).count

/-! ## `get_detection_boxes` -/

/-- The two output arrays of `get_detection_boxes`. -/
structure det_out where
  probs : Int → Int → ℚ
  boxes : Int → box

/-- Lines 248-252: body of the loop over the classes. -/
def prob_body (l : detection_layer) (thresh scale : ℚ) (i index : Int) (j : Nat)
    (probs : Int → Int → ℚ) : Int → Int → ℚ :=
  let class_index := i * l.classes
  let prob := scale * l.output (class_index + j)
  store2 probs index j (if prob > thresh then prob else 0)

/-- Lines 237-238 and 243-247 (and again 301-302 and 307-312): the box written to
`boxes[i*l.n + n]`, in image units. -/
def decoded_box (l : detection_layer) (w h : Int) (i : Int) (n : Nat) : box :=
  let row := Int.tdiv i l.side
  let col := Int.tmod i l.side
  let box_index := l.side * l.side * (l.classes + l.n) + (i * l.n + n) * 4
  let e : Nat := if l.sqrt ≠ 0 then 2 else 1
  { x := (l.output (box_index + 0) + col) / l.side * w
    y := (l.output (box_index + 1) + row) / l.side * h
    w := l.output (box_index + 2) ^ e * w
    h := l.output (box_index + 3) ^ e * h }

/-- Lines 240-255: body of the loop over the predictors of cell `i`. -/
def predictor_body (l : detection_layer) (w h : Int) (thresh : ℚ) (only_objectness : Int)
    (i : Int) (n : Nat) (o : det_out) : det_out :=
  let index := i * l.n + n
  let p_index := l.side * l.side * l.classes + i * l.n + n
  let scale := l.output p_index
  let probs := for_loop l.classes.toNat (prob_body l thresh scale i index) o.probs
  let probs := if only_objectness ≠ 0 then store2 probs index 0 scale else probs
  { probs := probs, boxes := store o.boxes index (decoded_box l w h i n) }

/-- The function `get_detection_boxes`: the arrays `probs` and `boxes` as they stand after
the call. The prediction buffer `l.output` is only read. -/
def get_detection_boxes (l : detection_layer) (w h : Int) (thresh : ℚ)
    (probs : Int → Int → ℚ) (boxes : Int → box) (only_objectness : Int) : det_out :=
  for_loop (l.side * l.side).toNat
    (fun i o => for_loop l.n.toNat (predictor_body l w h thresh only_objectness i) o)
    { probs := probs, boxes := boxes }

/-! ## Vocabulary for the properties -/

/-- The IoU that the matching loop measures for candidate `j` of a cell. -/
def cand_iou (E : collab) (l : detection_layer) (state : network_state)
    (index locations i truth_index : Int) (j : Nat) : ℚ :=
  E.box_iou (decode_box l index locations i j) (truth_box l state truth_index)

/-- The RMSE that the matching loop measures for candidate `j` of a cell. -/
def cand_rmse (E : collab) (l : detection_layer) (state : network_state)
    (index locations i truth_index : Int) (j : Nat) : ℚ :=
  E.box_rmse (decode_box l index locations i j) (truth_box l state truth_index)

/-- The value that lines 248-255 leave in `probs[i*l.n + k][j]`. -/
def decoded_prob (l : detection_layer) (thresh : ℚ) (only_objectness : Int) (i k j : Nat) : ℚ :=
  let scale := l.output (l.side * l.side * l.classes + i * l.n + k)
  let prob := scale * l.output (i * l.classes + j)
  if only_objectness ≠ 0 ∧ j = 0 then scale else if prob > thresh then prob else 0

/-- Record `i*l.n + k` of the decoder output holds what predictor `k` of cell `i` decodes to. -/
def record_ok (l : detection_layer) (w h : Int) (thresh : ℚ) (only_objectness : Int)
    (o : det_out) (i k : Nat) : Prop :=
  o.boxes (i * l.n + k) = decoded_box l w h i k ∧
    ∀ j : Nat, ((j : Int) < l.classes ∨ (only_objectness ≠ 0 ∧ j = 0)) →
      o.probs (i * l.n + k) j = decoded_prob l thresh only_objectness i k j

/-! ## A concrete scenario

A `2 × 2` grid with one predictor and one class per cell (`inputs = 24`). Cell 1 holds an
object with box (0.5, 0.5, 0.1, 0.1); its only predictor outputs the box
(60.5, 0.5, 0.1, 0.1), which after division of the centres by `side` lies at distance 30 from
the ground truth and does not overlap it. Every other prediction is `0`. -/

/-- Values of the collaborators on the boxes the scenarios reach: IoU `1` for identical boxes
and `0` for the disjoint ones, the coordinate distance of boxes that differ in one field, and
the square roots of `0`, `1` and `9`. -/
def probe_collab : collab :=
  { box_iou := fun a b => if a = b then 1 else 0
    box_rmse := fun a b => |a.x - b.x| + |a.y - b.y| + |a.w - b.w| + |a.h - b.h|
    softmax := fun p _ _ => p
    sqrtf := fun x => if x = 9 then 3 else if x = 1 then 1 else 0
    rand := fun _ => 0 }

/-- The layer of the scenario, with the scales of the reference configuration. -/
def scen_layer : detection_layer :=
  { batch := 1, inputs := 24, outputs := 24, truths := 24, n := 1, side := 2, w := 2, h := 2,
    classes := 1, coords := 4, rescore := 0, softmax := 0, sqrt := 0, forced := 0, random := 0,
    noobject_scale := 1 / 2, object_scale := 1, class_scale := 1, coord_scale := 5, cost := 0,
    output := fun _ => 0, delta := fun _ => 0 }

/-- The input and ground truth of the scenario. -/
def scen_state : network_state :=
  { input := fun k =>
      if k = 12 then 121 / 2 else if k = 13 then 1 / 2 else if k = 14 then 1 / 10
      else if k = 15 then 1 / 10 else 0
    truth := fun k =>
      if k = 6 then 1 else if k = 7 then 1 else if k = 8 then 1 / 2 else if k = 9 then 1 / 2
      else if k = 10 then 1 / 10 else if k = 11 then 1 / 10 else 0
    train := 1
    seen := 0 }

/-- The scenario layer once lines 56-68 have filled `l.output`. -/
def scen_forwarded : detection_layer :=
  { scen_layer with output := forward_output probe_collab scen_layer scen_state }

/-- A one-cell layer with two predictors and one class (`inputs = 11`), its output buffer
already filled: predictor 0 outputs the box (4.5, 0.5, 0.4, 0.4), predictor 1 the box
(0.5, 0.5, 0.4, 0.4), class score and both objectness scores 0.9. -/
def pair_layer : detection_layer :=
  { batch := 1, inputs := 11, outputs := 11, truths := 6, n := 2, side := 1, w := 1, h := 1,
    classes := 1, coords := 4, rescore := 0, softmax := 0, sqrt := 0, forced := 0, random := 0,
    noobject_scale := 1 / 2, object_scale := 1, class_scale := 1, coord_scale := 5, cost := 0,
    output := fun k =>
      if k = 0 then 9 / 10 else if k = 1 then 9 / 10 else if k = 2 then 9 / 10
      else if k = 3 then 9 / 2 else if k = 4 then 1 / 2 else if k = 5 then 2 / 5
      else if k = 6 then 2 / 5 else if k = 7 then 1 / 2 else if k = 8 then 1 / 2
      else if k = 9 then 2 / 5 else if k = 10 then 2 / 5 else 0
    delta := fun _ => 0 }

/-- Ground truth for `pair_layer`: an object of class 0 with box (0.5, 0.5, 0.4, 0.4). -/
def pair_state : network_state :=
  { input := pair_layer.output
    truth := fun k =>
      if k = 0 then 1 else if k = 1 then 1 else if k = 2 then 1 / 2 else if k = 3 then 1 / 2
      else if k = 4 then 2 / 5 else if k = 5 then 2 / 5 else 0
    train := 1
    seen := 0 }

/-- A one-cell layer with one predictor and no class (`inputs = 5`). -/
def unit_layer : detection_layer :=
  { batch := 1, inputs := 5, outputs := 5, truths := 5, n := 1, side := 1, w := 1, h := 1,
    classes := 0, coords := 4, rescore := 0, softmax := 0, sqrt := 0, forced := 0, random := 0,
    noobject_scale := 1, object_scale := 1, class_scale := 1, coord_scale := 5, cost := 0,
    output := fun _ => 0, delta := fun _ => 0 }

/-- An input for `unit_layer` with objectness 3, and a ground truth without object. -/
def unit_state : network_state :=
  { input := fun k => if k = 0 then 3 else 0
    truth := fun _ => 0
    train := 1
    seen := 0 }

/-! ## `get_detection_detections` -/

/-- The fields of the struct `detection` that the decoder writes; `prob` points to an array
of `classes` floats that belongs to the record. -/
structure detection where
  bbox : box
  objectness : ℚ
  prob : Int → ℚ

/-- Lines 315-319: body of the loop over the classes. -/
def det_prob_body (l : detection_layer) (thresh scale : ℚ) (i index : Int) (j : Nat)
    (dets : Int → detection) : Int → detection :=
  let class_index := i * l.classes
  let prob := scale * l.output (class_index + j)
  store dets index
    { dets index with prob := store (dets index).prob j (if prob > thresh then prob else 0) }

/-- Lines 303-320: body of the loop over the predictors of cell `i`; the box of lines 301-302
and 307-312 is `decoded_box`, the same expressions as in `get_detection_boxes`. -/
def detection_body (l : detection_layer) (w h : Int) (thresh : ℚ) (i : Int) (n : Nat)
    (dets : Int → detection) : Int → detection :=
  let index := i * l.n + n
  let p_index := l.side * l.side * l.classes + i * l.n + n
  let scale := l.output p_index
  let b := decoded_box l w h i n
  let dets := store dets index { dets index with bbox := b }
  let dets := store dets index { dets index with objectness := scale }
  for_loop l.classes.toNat (det_prob_body l thresh scale i index) dets

/-- The function `get_detection_detections`: the array `dets` as it stands after the call. -/
def get_detection_detections (l : detection_layer) (w h : Int) (thresh : ℚ)
    (dets : Int → detection) : Int → detection :=
  for_loop (l.side * l.side).toNat
    (fun i d => for_loop l.n.toNat (detection_body l w h thresh i) d)
    dets

/-- Record `i*l.n + k` of `dets` holds what predictor `k` of cell `i` decodes to. -/
def detection_ok (l : detection_layer) (w h : Int) (thresh : ℚ) (dets : Int → detection)
    (i k : Nat) : Prop :=
  (dets (i * l.n + k)).bbox = decoded_box l w h i k ∧
    (dets (i * l.n + k)).objectness = l.output (l.side * l.side * l.classes + i * l.n + k) ∧
    ∀ j : Nat, (j : Int) < l.classes →
      (dets (i * l.n + k)).prob j = decoded_prob l thresh 0 i k j

/-! ## Addressing

The offset expressions that the source writes inline. -/

/-- Lines 84, 117 and 119: offset of the score of class `j` of cell `i` in batch element `b`,
`index + i*l.classes + j` with `index = b*l.inputs`. -/
def train_class_offset (l : detection_layer) (b i j : Int) : Int :=
  b * l.inputs + i * l.classes + j

/-- Lines 97 and 194: offset of the objectness of predictor `j` of cell `i` in batch element
`b`, `index + locations*l.classes + i*l.n + j`. -/
def train_obj_offset (l : detection_layer) (b i j : Int) : Int :=
  b * l.inputs + l.side * l.side * l.classes + i * l.n + j

/-- Lines 134 and 177, with the field added as in lines 203-206: offset of box field `f` of
predictor `j` of cell `i` in batch element `b`. -/
def train_box_offset (l : detection_layer) (b i j f : Int) : Int :=
  b * l.inputs + l.side * l.side * (l.classes + l.n) + (i * l.n + j) * l.coords + f

/-- Lines 249-250 and 316-317: offset at which the decoders read the score of class `j` of
cell `i`. -/
def infer_class_offset (l : detection_layer) (i j : Int) : Int :=
  i * l.classes + j

/-- Lines 241 and 305: offset at which the decoders read the objectness of predictor `k` of
cell `i`. -/
def infer_obj_offset (l : detection_layer) (i k : Int) : Int :=
  l.side * l.side * l.classes + i * l.n + k

/-- Lines 243-247 and 307-312: offset at which the decoders read box field `f` of predictor
`k` of cell `i`. -/
def infer_box_offset (l : detection_layer) (i k f : Int) : Int :=
  l.side * l.side * (l.classes + l.n) + (i * l.n + k) * 4 + f

/-- A field of one batch element's slice of the prediction tensor: a class score, an
objectness score or a box coordinate. -/
inductive tensor_field where
  | cls (i j : Nat)
  | obj (i k : Nat)
  | coord (i k f : Nat)

/-- The indices of a field are within the layer's dimensions. -/
def field_valid (l : detection_layer) : tensor_field → Prop
  | .cls i j => (i : Int) < l.side * l.side ∧ (j : Int) < l.classes
  | .obj i k => (i : Int) < l.side * l.side ∧ (k : Int) < l.n
  | .coord i k f => (i : Int) < l.side * l.side ∧ (k : Int) < l.n ∧ f < 4

/-- The offset of a field of batch element `b`, as the training path computes it. -/
def field_offset (l : detection_layer) (b : Int) : tensor_field → Int
  | .cls i j => train_class_offset l b i j
  | .obj i k => train_obj_offset l b i k
  | .coord i k f => train_box_offset l b i k f

/-- The offset of a field relative to the start of its batch element, for `coords = 4`. -/
def field_local (l : detection_layer) : tensor_field → Int
  | .cls i j => (i : Int) * l.classes + j
  | .obj i k => l.side * l.side * l.classes + ((i : Int) * l.n + k)
  | .coord i k f =>
      l.side * l.side * l.classes + l.side * l.side * l.n + (((i : Int) * l.n + k) * 4 + f)

/-! ## The end-to-end scenario -/

/-- The layer of the end-to-end scenario: a `2 × 2` grid, one predictor and one class per
cell, `inputs = 24`, every mode off. -/
def e2e_layer : detection_layer :=
  { batch := 1, inputs := 24, outputs := 24, truths := 24, n := 1, side := 2, w := 2, h := 2,
    classes := 1, coords := 4, rescore := 0, softmax := 0, sqrt := 0, forced := 0, random := 0,
    noobject_scale := 1 / 2, object_scale := 1, class_scale := 1, coord_scale := 5, cost := 0,
    output := fun _ => 0, delta := fun _ => 0 }

/-- The input and ground truth of the end-to-end scenario: cell 0 holds an object of class 0
with box (0.5, 0.5, 0.4, 0.4) and is predicted with the same box, class score 0.9 and
objectness 0.9; the other cells hold no object and every other prediction is `0`. -/
def e2e_state : network_state :=
  { input := fun k =>
      if k = 0 then 9 / 10 else if k = 4 then 9 / 10 else if k = 8 then 1 / 2
      else if k = 9 then 1 / 2 else if k = 10 then 2 / 5 else if k = 11 then 2 / 5 else 0
    truth := fun k =>
      if k = 0 then 1 else if k = 1 then 1 else if k = 2 then 1 / 2 else if k = 3 then 1 / 2
      else if k = 4 then 2 / 5 else if k = 5 then 2 / 5 else 0
    train := 1
    seen := 0 }

/-! ## Scenarios with an unmatched cell next to a matched one -/

/-- A rescoring layer on a `2 × 2` grid with one predictor and one class per cell. -/
def clash_layer : detection_layer :=
  { e2e_layer with rescore := 1 }

/-- Cell 0 holds an object with box (0.9, 0.9, 0.2, 0.2) and is predicted exactly (class
score and objectness 0.9). Cell 1 holds an object with box (0.5, 0.5, 0.1, 0.1); its
predictor outputs (60.5, 0.5, 0.1, 0.1), at distance 30 and without overlap. The box of
cell 0 does not overlap the ground truth of cell 1 either. -/
def clash_state : network_state :=
  { input := fun k =>
      if k = 0 then 9 / 10 else if k = 4 then 9 / 10
      else if k = 8 then 9 / 10 else if k = 9 then 9 / 10
      else if k = 10 then 1 / 5 else if k = 11 then 1 / 5
      else if k = 12 then 121 / 2 else if k = 13 then 1 / 2
      else if k = 14 then 1 / 10 else if k = 15 then 1 / 10 else 0
    truth := fun k =>
      if k = 0 then 1 else if k = 1 then 1
      else if k = 2 then 9 / 10 else if k = 3 then 9 / 10
      else if k = 4 then 1 / 5 else if k = 5 then 1 / 5
      else if k = 6 then 1 else if k = 7 then 1
      else if k = 8 then 1 / 2 else if k = 9 then 1 / 2
      else if k = 10 then 1 / 10 else if k = 11 then 1 / 10 else 0
    train := 1
    seen := 0 }

/-- The layer `clash_layer` once lines 56-68 have filled `l.output`. -/
def clash_forwarded : detection_layer :=
  { clash_layer with output := forward_output probe_collab clash_layer clash_state }

/-- A one-cell layer with one predictor and three classes (`inputs = 8`). -/
def triple_layer : detection_layer :=
  { batch := 1, inputs := 8, outputs := 8, truths := 8, n := 1, side := 1, w := 1, h := 1,
    classes := 3, coords := 4, rescore := 0, softmax := 0, sqrt := 0, forced := 0, random := 0,
    noobject_scale := 1 / 2, object_scale := 1, class_scale := 1, coord_scale := 5, cost := 0,
    output := fun _ => 0, delta := fun _ => 0 }

/-- The cell holds an object of class 0 with box (0.5, 0.5, 0.1, 0.1); its predictor outputs
(30.5, 0.5, 0.1, 0.1), at distance 30 and without overlap; every score is `0`. -/
def triple_state : network_state :=
  { input := fun k =>
      if k = 4 then 61 / 2 else if k = 5 then 1 / 2
      else if k = 6 then 1 / 10 else if k = 7 then 1 / 10 else 0
    truth := fun k =>
      if k = 0 then 1 else if k = 1 then 1
      else if k = 4 then 1 / 2 else if k = 5 then 1 / 2
      else if k = 6 then 1 / 10 else if k = 7 then 1 / 10 else 0
    train := 1
    seen := 0 }

/-- A `2 × 2` grid with two predictors and one class per cell (`inputs = 44`). -/
def twin_layer : detection_layer :=
  { batch := 1, inputs := 44, outputs := 44, truths := 24, n := 2, side := 2, w := 2, h := 2,
    classes := 1, coords := 4, rescore := 0, softmax := 0, sqrt := 0, forced := 0, random := 0,
    noobject_scale := 1 / 2, object_scale := 1, class_scale := 1, coord_scale := 5, cost := 0,
    output := fun _ => 0, delta := fun _ => 0 }

/-- Cell 0 holds an object with box (0.9, 0.9, 0.2, 0.2); its predictor 0 outputs that box
and its predictor 1 the empty box at the origin. Cell 1 holds an object with box
(0.5, 0.5, 0.1, 0.1); its predictors output (60.5, 0.5, 0.1, 0.1) and
(80.5, 0.5, 0.1, 0.1), at distances 30 and 40 and without overlap. -/
def twin_state : network_state :=
  { input := fun k =>
      if k = 12 then 9 / 10 else if k = 13 then 9 / 10
      else if k = 14 then 1 / 5 else if k = 15 then 1 / 5
      else if k = 20 then 121 / 2 else if k = 21 then 1 / 2
      else if k = 22 then 1 / 10 else if k = 23 then 1 / 10
      else if k = 24 then 161 / 2 else if k = 25 then 1 / 2
      else if k = 26 then 1 / 10 else if k = 27 then 1 / 10 else 0
    truth := fun k =>
      if k = 0 then 1 else if k = 1 then 1
      else if k = 2 then 9 / 10 else if k = 3 then 9 / 10
      else if k = 4 then 1 / 5 else if k = 5 then 1 / 5
      else if k = 6 then 1 else if k = 7 then 1
      else if k = 8 then 1 / 2 else if k = 9 then 1 / 2
      else if k = 10 then 1 / 10 else if k = 11 then 1 / 10 else 0
    train := 1
    seen := 0 }

/-- The layer `twin_layer` once lines 56-68 have filled `l.output`. -/
def twin_forwarded : detection_layer :=
  { twin_layer with output := forward_output probe_collab twin_layer twin_state }

/-! ## The training walk, cell by cell -/

/-- Line 89: offset of the ground truth of cell `i` of batch element `b`. -/
def truth_offset (l : detection_layer) (b i : Int) : Int :=
  (b * (l.side * l.side) + i) * (1 + l.coords + l.classes)

/-- Lines 72-80: the running sums and the zeroed gradient buffer before the walk. -/
def train_init (l : detection_layer) : fwd_acc :=
  { delta := fun k => if 0 ≤ k ∧ k < l.inputs * l.batch then 0 else l.delta k,
    avg_iou := 0, avg_cat := 0, avg_allcat := 0, avg_obj := 0, avg_anyobj := 0,
    count := 0, rand_calls := 0 }

/-- The accumulator when the walk reaches cell `i` of batch element `b`. -/
def acc_before (E : collab) (l : detection_layer) (state : network_state) (b i : Nat) :
    fwd_acc :=
  for_loop i (cell_body E l state b)
    (for_loop b (fun b a => for_loop (l.side * l.side).toNat (cell_body E l state b) a)
      (train_init l))

/-- The value of `best_index` at line 176 when the walk processes cell `i` of batch element
`b`. -/
def responsible (E : collab) (l : detection_layer) (state : network_state) (b i : Nat) : Int :=
  cell_best_index E l state (b * l.inputs) (l.side * l.side) i (truth_offset l b i)
    (acc_before E l state b i).rand_calls

/-- The test of line 112: the presence flag of the cell converts to a nonzero `int`. -/
def is_object (l : detection_layer) (state : network_state) (b i : Int) : Prop :=
  float_to_int (state.truth (truth_offset l b i)) ≠ 0

instance is_object_decidable (l : detection_layer) (state : network_state) (b i : Int) :
    Decidable (is_object l state b i) := by
  unfold is_object; exact inferInstance

/-- Every object-bearing cell of the call gets, at line 176, an index within `[0, n)`. -/
def indices_valid (E : collab) (l : detection_layer) (state : network_state) : Prop :=
  ∀ (b i : Nat), (b : Int) < l.batch → (i : Int) < l.side * l.side → is_object l state b i →
    ∀ rc : Nat,
      0 ≤ cell_best_index E l state (b * l.inputs) (l.side * l.side) i (truth_offset l b i) rc ∧
      cell_best_index E l state (b * l.inputs) (l.side * l.side) i (truth_offset l b i) rc < l.n

/-- The cell a field belongs to. -/
def field_cell : tensor_field → Nat
  | .cls i _ => i
  | .obj i _ => i
  | .coord i _ _ => i

/-- Offset `t` holds a field of cell `i` of batch element `b`. -/
def owns (l : detection_layer) (b : Int) (i : Nat) (t : Int) : Prop :=
  ∃ x : tensor_field, field_valid l x ∧ field_cell x = i ∧ field_offset l b x = t

/-- The ground-truth value that lines 203-209 compare box field `f` with. -/
def coord_target (E : collab) (l : detection_layer) (state : network_state) (b i : Int)
    (f : Nat) : ℚ :=
  if l.sqrt ≠ 0 ∧ (f = 2 ∨ f = 3) then
    E.sqrtf (state.truth (truth_offset l b i + 1 + l.classes + f))
  else state.truth (truth_offset l b i + 1 + l.classes + f)


/-! ## Machine-integer lemmas -/

theorem wrap32_modEq (x : Int) : wrap32 x ≡ x [ZMOD 4294967296] := by
  unfold wrap32 Int.ModEq
  omega

theorem wrap32_of_is_int (x : Int) (h : is_int x) : wrap32 x = x := by
  unfold is_int INT_MIN INT_MAX at h
  unfold wrap32
  omega

theorem wrap32_congr {a b : Int} (h : a ≡ b [ZMOD 4294967296]) : wrap32 a = wrap32 b := by
  unfold Int.ModEq at h
  unfold wrap32
  omega

theorem is_int_wrap32 (x : Int) : is_int (wrap32 x) := by
  unfold is_int INT_MIN INT_MAX wrap32
  omega

theorem assert_expr_eq (side n classes coords : Int) :
    int_mul (int_mul side side) (int_add (int_mul (int_add 1 coords) n) classes)
      = wrap32 (side * side * ((1 + coords) * n + classes)) := by
  unfold int_mul int_add
  apply wrap32_congr
  exact ((wrap32_modEq _).mul
    ((wrap32_modEq _).trans ((((wrap32_modEq _).trans
      (((wrap32_modEq _).mul_right n))).add_right classes))))

theorem make_detection_layer_isSome (batch inputs n side classes coords rescore : Int) :
    (make_detection_layer batch inputs n side classes coords rescore).isSome = true
      ↔ wrap32 (side * side * ((1 + coords) * n + classes)) = inputs := by
  unfold make_detection_layer
  rw [assert_expr_eq]
  split <;> simp_all

/-- C1, as stated, fails: for `side = 65536`, `n = 1`, `classes = 0`, `coords = 4` the product
`side*side*((1+coords)*n + classes)` is `5 * 2^32`, which the 32-bit evaluation of the
assertion reduces to `0`; construction with `inputs = 0` succeeds although `inputs` differs
from the product. -/
theorem make_detection_layer_wraps :
    ¬ ((make_detection_layer 1 0 1 65536 0 4 0).isSome = true
      ↔ (0 : Int) = 65536 * 65536 * ((1 + 4) * 1 + 0)) := by
  intro h
  have hsome : (make_detection_layer 1 0 1 65536 0 4 0).isSome = true := by
    rw [make_detection_layer_isSome]; decide
  exact absurd (h.1 hsome) (by decide)

/-- C1, amended: for arguments whose product `side*side*((1+coords)*n + classes)` is itself
within the range of `int`, `make_detection_layer` returns a layer if and only if `inputs`
equals that product, and fails otherwise; the outcome is a function of the arguments. -/
theorem make_detection_layer_succeeds_iff (batch inputs n side classes coords rescore : Int)
    (hprod : is_int (side * side * ((1 + coords) * n + classes))) :
    ((make_detection_layer batch inputs n side classes coords rescore).isSome = true
        ↔ inputs = side * side * ((1 + coords) * n + classes))
      ∧ ((make_detection_layer batch inputs n side classes coords rescore) = none
        ↔ inputs ≠ side * side * ((1 + coords) * n + classes)) := by
  have key := make_detection_layer_isSome batch inputs n side classes coords rescore
  rw [wrap32_of_is_int _ hprod] at key
  constructor
  · rw [key]; exact eq_comm
  · rw [← Option.not_isSome_iff_eq_none, key]
    exact ⟨fun h e => h e.symm, fun h e => h e.symm⟩

theorem make_detection_layer_succeeds_iff_witness :
    is_int (7 * 7 * ((1 + 4) * 2 + 20)) ∧
      (((make_detection_layer 1 1470 2 7 20 4 0).isSome = true
          ↔ (1470 : Int) = 7 * 7 * ((1 + 4) * 2 + 20))
        ∧ ((make_detection_layer 1 1470 2 7 20 4 0) = none
          ↔ (1470 : Int) ≠ 7 * 7 * ((1 + 4) * 2 + 20))) :=
  ⟨by decide, make_detection_layer_succeeds_iff 1 1470 2 7 20 4 0 (by decide)⟩

/-! ## Loop lemmas -/

theorem for_loop_induct {σ : Type} (P : Nat → σ → Prop) (N : Nat) (body : Nat → σ → σ) (s : σ)
    (h0 : P 0 s) (hstep : ∀ k, k < N → ∀ t, P k t → P (k + 1) (body k t)) :
    P N (for_loop N body s) := by
  induction N with
  | zero => exact h0
  | succ m ih =>
    exact hstep m (Nat.lt_succ_self m) _
      (ih (fun k hk t ht => hstep k (Nat.lt_succ_of_lt hk) t ht))

/-! ## The matching loop -/

/-- The matching loop over abstract per-candidate IoU and RMSE values. -/
theorem select_loop_iou (f g : Nat → ℚ) (N : Nat) :
    let s := for_loop N (fun j s => select_step (f j) (g j) j s)
      { best_index := -1, best_iou := 0, best_rmse := 20 }
    0 ≤ s.best_iou ∧ (∀ j, j < N → f j ≤ s.best_iou) ∧
      (0 < s.best_iou → ∃ m : Nat, s.best_index = m ∧ m < N ∧ f m = s.best_iou ∧
        ∀ j, j < m → f j < s.best_iou) := by
  intro s
  refine for_loop_induct
    (fun (k : Nat) (s : best_state) => 0 ≤ s.best_iou ∧ (∀ j, j < k → f j ≤ s.best_iou) ∧
      (0 < s.best_iou → ∃ m : Nat, s.best_index = m ∧ m < k ∧ f m = s.best_iou ∧
        ∀ j, j < m → f j < s.best_iou)) N _ _ ?_ ?_
  · exact ⟨le_refl _, fun j hj => absurd hj (Nat.not_lt_zero j), fun h => absurd h (lt_irrefl _)⟩
  · rintro k - t ⟨h0, hle, hpos⟩
    unfold select_step
    by_cases hc : t.best_iou > 0 ∨ f k > 0
    · rw [if_pos hc]
      by_cases hgt : f k > t.best_iou
      · rw [if_pos hgt]
        refine ⟨le_of_lt (lt_of_le_of_lt h0 hgt), ?_, ?_⟩
        · intro j hj
          rcases Nat.lt_succ_iff_lt_or_eq.1 hj with h | h
          · exact le_trans (hle j h) (le_of_lt hgt)
          · rw [h]
        · intro _
          exact ⟨k, rfl, Nat.lt_succ_self k, rfl, fun j hj => lt_of_le_of_lt (hle j hj) hgt⟩
      · rw [if_neg hgt]
        refine ⟨h0, ?_, ?_⟩
        · intro j hj
          rcases Nat.lt_succ_iff_lt_or_eq.1 hj with h | h
          · exact hle j h
          · rw [h]; exact not_lt.1 hgt
        · intro hp
          obtain ⟨m, hm1, hm2, hm3, hm4⟩ := hpos hp
          exact ⟨m, hm1, Nat.lt_succ_of_lt hm2, hm3, hm4⟩
    · rw [if_neg hc]
      have hk : f k ≤ 0 := not_lt.1 (fun h => hc (Or.inr h))
      have hb : t.best_iou = 0 := le_antisymm (not_lt.1 (fun h => hc (Or.inl h))) h0
      have hiou : ∀ u : best_state, u.best_iou = t.best_iou →
          (0 ≤ u.best_iou ∧ (∀ j, j < k + 1 → f j ≤ u.best_iou) ∧
            (0 < u.best_iou → ∃ m : Nat, u.best_index = m ∧ m < k + 1 ∧ f m = u.best_iou ∧
              ∀ j, j < m → f j < u.best_iou)) := by
        intro u hu
        rw [hu, hb]
        refine ⟨le_refl _, ?_, fun h => absurd h (lt_irrefl _)⟩
        intro j hj
        rcases Nat.lt_succ_iff_lt_or_eq.1 hj with h | h
        · have := hle j h; rwa [hb] at this
        · rw [h]; exact hk
      split
      · exact hiou _ rfl
      · exact hiou _ rfl

/-- The matching loop when no candidate overlaps: the running best IoU stays `0`, and the
running best RMSE is the smaller of the sentinel `20` and the least RMSE seen. -/
theorem select_loop_rmse (f g : Nat → ℚ) (N : Nat) (hf : ∀ j, j < N → f j ≤ 0) :
    let s := for_loop N (fun j s => select_step (f j) (g j) j s)
      { best_index := -1, best_iou := 0, best_rmse := 20 }
    s.best_iou = 0 ∧ s.best_rmse ≤ 20 ∧ (∀ j, j < N → s.best_rmse ≤ g j) ∧
      (s.best_rmse = 20 → s.best_index = -1) ∧
      (s.best_rmse < 20 → ∃ m : Nat, s.best_index = m ∧ m < N ∧ g m = s.best_rmse ∧
        ∀ j, j < m → s.best_rmse < g j) := by
  intro s
  refine for_loop_induct
    (fun (k : Nat) (s : best_state) =>
      s.best_iou = 0 ∧ s.best_rmse ≤ 20 ∧ (∀ j, j < k → s.best_rmse ≤ g j) ∧
      (s.best_rmse = 20 → s.best_index = -1) ∧
      (s.best_rmse < 20 → ∃ m : Nat, s.best_index = m ∧ m < k ∧ g m = s.best_rmse ∧
        ∀ j, j < m → s.best_rmse < g j)) N _ _ ?_ ?_
  · exact ⟨rfl, le_refl _, fun j hj => absurd hj (Nat.not_lt_zero j), fun _ => rfl,
      fun h => absurd h (lt_irrefl _)⟩
  · rintro k hk t ⟨hb, h20, hle, hinit, hlt⟩
    have hfk : ¬ (t.best_iou > 0 ∨ f k > 0) := by
      rw [hb]
      rintro (h | h)
      · exact lt_irrefl _ h
      · exact absurd (hf k hk) (not_le.2 h)
    unfold select_step
    rw [if_neg hfk]
    by_cases hr : g k < t.best_rmse
    · rw [if_pos hr]
      refine ⟨hb, le_trans (le_of_lt hr) h20, ?_, ?_, ?_⟩
      · intro j hj
        rcases Nat.lt_succ_iff_lt_or_eq.1 hj with h | h
        · exact le_trans (le_of_lt hr) (hle j h)
        · rw [h]
      · intro h
        exact absurd h (ne_of_lt (lt_of_lt_of_le hr h20))
      · intro _
        exact ⟨k, rfl, Nat.lt_succ_self k, rfl, fun j hj => lt_of_lt_of_le hr (hle j hj)⟩
    · rw [if_neg hr]
      refine ⟨hb, h20, ?_, hinit, ?_⟩
      · intro j hj
        rcases Nat.lt_succ_iff_lt_or_eq.1 hj with h | h
        · exact hle j h
        · rw [h]; exact not_lt.1 hr
      · intro hp
        obtain ⟨m, hm1, hm2, hm3, hm4⟩ := hlt hp
        exact ⟨m, hm1, Nat.lt_succ_of_lt hm2, hm3, hm4⟩

/-! ## The responsible predictor -/

theorem match_loop_eq (E : collab) (l : detection_layer) (state : network_state)
    (index locations i truth_index : Int) :
    match_loop E l index locations i (truth_box l state truth_index)
      = for_loop l.n.toNat
          (fun j s => select_step (cand_iou E l state index locations i truth_index j)
            (cand_rmse E l state index locations i truth_index j) j s)
          { best_index := -1, best_iou := 0, best_rmse := 20 } := rfl

theorem cell_best_index_plain (E : collab) (l : detection_layer) (state : network_state)
    (index locations i truth_index : Int) (rand_calls : Nat)
    (hforced : l.forced = 0) (hrandom : l.random = 0) :
    cell_best_index E l state index locations i truth_index rand_calls
      = (match_loop E l index locations i (truth_box l state truth_index)).best_index := by
  simp [cell_best_index, forced_index, random_index, random_active, hforced, hrandom]

/-- C2: with forced and random modes off, if some candidate of the cell has IoU `> 0` then
the responsible predictor is a candidate `m < n` whose IoU is the maximum over all `n`
candidates and no candidate before `m` reaches that IoU; RMSE plays no part. In particular a
candidate that alone has nonzero IoU is the one selected. -/
theorem best_index_is_first_max_iou (E : collab) (l : detection_layer) (state : network_state)
    (index locations i truth_index : Int) (rand_calls : Nat)
    (hforced : l.forced = 0) (hrandom : l.random = 0)
    (hpos : ∃ j : Nat, (j : Int) < l.n ∧
      0 < cand_iou E l state index locations i truth_index j) :
    ∃ m : Nat, cell_best_index E l state index locations i truth_index rand_calls = m ∧
      (m : Int) < l.n ∧
      (∀ j : Nat, (j : Int) < l.n →
        cand_iou E l state index locations i truth_index j
          ≤ cand_iou E l state index locations i truth_index m) ∧
      (∀ j : Nat, j < m →
        cand_iou E l state index locations i truth_index j
          < cand_iou E l state index locations i truth_index m) ∧
      (∀ j0 : Nat, (j0 : Int) < l.n →
        cand_iou E l state index locations i truth_index j0 ≠ 0 →
        (∀ j : Nat, (j : Int) < l.n → j ≠ j0 →
          cand_iou E l state index locations i truth_index j = 0) → m = j0) := by
  rw [cell_best_index_plain E l state index locations i truth_index rand_calls hforced hrandom,
    match_loop_eq]
  obtain ⟨h0, hle, hbest⟩ := select_loop_iou
    (cand_iou E l state index locations i truth_index)
    (cand_rmse E l state index locations i truth_index) l.n.toNat
  obtain ⟨j1, hj1, hj1pos⟩ := hpos
  have hj1N : j1 < l.n.toNat := by omega
  obtain ⟨m, hm1, hm2, hm3, hm4⟩ := hbest (lt_of_lt_of_le hj1pos (hle j1 hj1N))
  have hmn : (m : Int) < l.n := by omega
  refine ⟨m, hm1, hmn, ?_, ?_, ?_⟩
  · intro j hj
    rw [hm3]
    exact hle j (by omega)
  · intro j hj
    rw [hm3]
    exact hm4 j hj
  · intro j0 _ _ hothers
    by_contra hne
    have hz := hothers m hmn hne
    have := hle j1 hj1N
    rw [← hm3, hz] at this
    exact absurd hj1pos (not_lt.2 this)

/-- C5: with forced mode on and the random override inactive, the responsible predictor is
index `0` when the ground-truth area `truth.w * truth.h` is at least `0.1` and index `1`
when it is below `0.1`, whatever the candidates are. -/
theorem forced_best_index (E : collab) (l : detection_layer) (state : network_state)
    (index locations i truth_index : Int) (rand_calls : Nat)
    (hforced : l.forced ≠ 0) (hrandom : ¬ random_active l state) :
    (1 / 10 ≤ state.truth (truth_index + 1 + l.classes + 2)
          * state.truth (truth_index + 1 + l.classes + 3) →
        cell_best_index E l state index locations i truth_index rand_calls = 0) ∧
      (state.truth (truth_index + 1 + l.classes + 2)
          * state.truth (truth_index + 1 + l.classes + 3) < 1 / 10 →
        cell_best_index E l state index locations i truth_index rand_calls = 1) := by
  unfold cell_best_index
  simp only [random_index, forced_index, if_neg hrandom, if_pos hforced, truth_box,
    float_to_box]
  constructor
  · intro h
    rw [if_neg (not_lt.2 h)]
  · intro h
    rw [if_pos h]

/-- With forced and random modes off and no candidate overlapping the ground truth, a
candidate whose RMSE is below the initial `best_rmse = 20` makes the loop select the first
candidate of least RMSE. -/
theorem best_index_min_rmse_below_sentinel (E : collab) (l : detection_layer)
    (state : network_state) (index locations i truth_index : Int) (rand_calls : Nat)
    (hforced : l.forced = 0) (hrandom : l.random = 0)
    (hiou : ∀ j : Nat, (j : Int) < l.n →
      cand_iou E l state index locations i truth_index j ≤ 0)
    (hsome : ∃ j : Nat, (j : Int) < l.n ∧
      cand_rmse E l state index locations i truth_index j < 20) :
    ∃ m : Nat, cell_best_index E l state index locations i truth_index rand_calls = m ∧
      (m : Int) < l.n ∧
      (∀ j : Nat, (j : Int) < l.n →
        cand_rmse E l state index locations i truth_index m
          ≤ cand_rmse E l state index locations i truth_index j) ∧
      (∀ j : Nat, j < m →
        cand_rmse E l state index locations i truth_index m
          < cand_rmse E l state index locations i truth_index j) := by
  rw [cell_best_index_plain E l state index locations i truth_index rand_calls hforced hrandom,
    match_loop_eq]
  obtain ⟨-, -, hle, -, hlt⟩ := select_loop_rmse
    (cand_iou E l state index locations i truth_index)
    (cand_rmse E l state index locations i truth_index) l.n.toNat
    (fun j hj => hiou j (by omega))
  obtain ⟨j1, hj1, hj1lt⟩ := hsome
  obtain ⟨m, hm1, hm2, hm3, hm4⟩ := hlt (lt_of_le_of_lt (hle j1 (by omega)) hj1lt)
  refine ⟨m, hm1, by omega, ?_, ?_⟩
  · intro j hj
    rw [hm3]
    exact hle j (by omega)
  · intro j hj
    rw [hm3]
    exact hm4 j hj

/-- With forced and random modes off, when no candidate overlaps the ground truth and no
candidate has RMSE below the initial `best_rmse = 20`, the loop leaves `best_index` at its
initial value `-1`. -/
theorem best_index_stays_initial (E : collab) (l : detection_layer)
    (state : network_state) (index locations i truth_index : Int) (rand_calls : Nat)
    (hforced : l.forced = 0) (hrandom : l.random = 0)
    (hiou : ∀ j : Nat, (j : Int) < l.n →
      cand_iou E l state index locations i truth_index j ≤ 0)
    (hrmse : ∀ j : Nat, (j : Int) < l.n →
      20 ≤ cand_rmse E l state index locations i truth_index j) :
    cell_best_index E l state index locations i truth_index rand_calls = -1 := by
  rw [cell_best_index_plain E l state index locations i truth_index rand_calls hforced hrandom,
    match_loop_eq]
  obtain ⟨-, h20, -, hinit, hlt⟩ := select_loop_rmse
    (cand_iou E l state index locations i truth_index)
    (cand_rmse E l state index locations i truth_index) l.n.toNat
    (fun j hj => hiou j (by omega))
  apply hinit
  rcases lt_or_eq_of_le h20 with h | h
  · exfalso
    obtain ⟨m, -, hm2, hm3, -⟩ := hlt h
    have := hrmse m (by omega)
    rw [hm3] at this
    exact absurd h (not_lt.2 this)
  · exact h

/-! ## Cells without object -/

theorem noobj_loop_fields (l : detection_layer) (index locations i : Int) (N : Nat)
    (a : fwd_acc) :
    (for_loop N (noobj_body l index locations i) a).count = a.count ∧
      (for_loop N (noobj_body l index locations i) a).rand_calls = a.rand_calls ∧
      (for_loop N (noobj_body l index locations i) a).avg_iou = a.avg_iou ∧
      (for_loop N (noobj_body l index locations i) a).avg_cat = a.avg_cat ∧
      (for_loop N (noobj_body l index locations i) a).avg_allcat = a.avg_allcat ∧
      (for_loop N (noobj_body l index locations i) a).avg_obj = a.avg_obj := by
  induction N with
  | zero => exact ⟨rfl, rfl, rfl, rfl, rfl, rfl⟩
  | succ m ih => exact ih

theorem noobj_loop_delta (l : detection_layer) (index locations i : Int) (N : Nat)
    (a : fwd_acc) (t : Int) :
    (for_loop N (noobj_body l index locations i) a).delta t
      = if ∃ j : Nat, j < N ∧ t = index + locations * l.classes + i * l.n + j
        then l.noobject_scale * (0 - l.output t) else a.delta t := by
  induction N with
  | zero => simp [for_loop]
  | succ m ih =>
    show store (for_loop m (noobj_body l index locations i) a).delta
        (index + locations * l.classes + i * l.n + m)
        (l.noobject_scale * (0 - l.output (index + locations * l.classes + i * l.n + m))) t = _
    unfold store
    by_cases ht : t = index + locations * l.classes + i * l.n + m
    · rw [if_pos ht, if_pos ⟨m, Nat.lt_succ_self m, ht⟩, ht]
    · rw [if_neg ht, ih]
      by_cases hex : ∃ j : Nat, j < m ∧ t = index + locations * l.classes + i * l.n + j
      · obtain ⟨j, hj, hjt⟩ := hex
        rw [if_pos ⟨j, hj, hjt⟩, if_pos ⟨j, Nat.lt_succ_of_lt hj, hjt⟩]
      · rw [if_neg hex, if_neg]
        rintro ⟨j, hj, hjt⟩
        rcases Nat.lt_succ_iff_lt_or_eq.1 hj with h | h
        · exact hex ⟨j, h, hjt⟩
        · subst h; exact ht hjt

/-- The iteration of a cell whose presence flag converts to `0`: it leaves the object-cell
count and the call count of `rand()` as they were, and in the gradient buffer it writes the
`n` objectness entries of the cell, each to `noobject_scale * (0 - predicted)`, and nothing
else. -/
theorem cell_body_object_free (E : collab) (l : detection_layer) (state : network_state)
    (b : Int) (i : Nat) (a : fwd_acc)
    (hflag : float_to_int
      (state.truth ((b * (l.side * l.side) + i) * (1 + l.coords + l.classes))) = 0) :
    (cell_body E l state b i a).count = a.count ∧
      (cell_body E l state b i a).rand_calls = a.rand_calls ∧
      (∀ j : Nat, (j : Int) < l.n →
        (cell_body E l state b i a).delta
            (b * l.inputs + l.side * l.side * l.classes + i * l.n + j)
          = l.noobject_scale
            * (0 - l.output (b * l.inputs + l.side * l.side * l.classes + i * l.n + j))) ∧
      (∀ t : Int, (∀ j : Nat, (j : Int) < l.n →
          t ≠ b * l.inputs + l.side * l.side * l.classes + i * l.n + j) →
        (cell_body E l state b i a).delta t = a.delta t) := by
  have hcell : cell_body E l state b i a
      = for_loop l.n.toNat (noobj_body l (b * l.inputs) (l.side * l.side) i) a := by
    unfold cell_body
    simp only [hflag, if_true]
  rw [hcell]
  obtain ⟨h1, h2, -⟩ := noobj_loop_fields l (b * l.inputs) (l.side * l.side) i l.n.toNat a
  refine ⟨h1, h2, ?_, ?_⟩
  · intro j hj
    rw [noobj_loop_delta, if_pos ⟨j, by omega, rfl⟩]
  · intro t ht
    rw [noobj_loop_delta, if_neg]
    rintro ⟨j, hj, hjt⟩
    exact ht j (by omega) hjt

theorem best_index_is_first_max_iou_witness :
    ∃ m : Nat, cell_best_index probe_collab pair_layer pair_state 0 1 0 0 0 = m ∧
      (m : Int) < pair_layer.n ∧
      (∀ j : Nat, (j : Int) < pair_layer.n →
        cand_iou probe_collab pair_layer pair_state 0 1 0 0 j
          ≤ cand_iou probe_collab pair_layer pair_state 0 1 0 0 m) ∧
      (∀ j : Nat, j < m →
        cand_iou probe_collab pair_layer pair_state 0 1 0 0 j
          < cand_iou probe_collab pair_layer pair_state 0 1 0 0 m) ∧
      (∀ j0 : Nat, (j0 : Int) < pair_layer.n →
        cand_iou probe_collab pair_layer pair_state 0 1 0 0 j0 ≠ 0 →
        (∀ j : Nat, (j : Int) < pair_layer.n → j ≠ j0 →
          cand_iou probe_collab pair_layer pair_state 0 1 0 0 j = 0) → m = j0) :=
  best_index_is_first_max_iou probe_collab pair_layer pair_state 0 1 0 0 0 rfl rfl
    ⟨1, by decide, by
      simp [cand_iou, decode_box, truth_box, float_to_box, pair_layer, pair_state,
        probe_collab]⟩

theorem forced_best_index_witness :
    (1 / 10 ≤ pair_state.truth (0 + 1 + pair_layer.classes + 2)
          * pair_state.truth (0 + 1 + pair_layer.classes + 3) →
        cell_best_index probe_collab { pair_layer with forced := 1 } pair_state 0 1 0 0 0 = 0) ∧
      (pair_state.truth (0 + 1 + pair_layer.classes + 2)
          * pair_state.truth (0 + 1 + pair_layer.classes + 3) < 1 / 10 →
        cell_best_index probe_collab { pair_layer with forced := 1 } pair_state 0 1 0 0 0 = 1) :=
  forced_best_index probe_collab { pair_layer with forced := 1 } pair_state 0 1 0 0 0
    (by decide) (by decide)

/-- C3 at the scenario: the only candidate of cell 1 has IoU `0` and RMSE `30`, which is not
below the initial `best_rmse = 20`, so `best_index` keeps its initial value `-1` and no
candidate is selected. -/
theorem min_rmse_missed_at_scenario :
    scen_forwarded.n = 1 ∧
      cand_iou probe_collab scen_forwarded scen_state 0 4 1 6 0 = 0 ∧
      cand_rmse probe_collab scen_forwarded scen_state 0 4 1 6 0 = 30 ∧
      cell_best_index probe_collab scen_forwarded scen_state 0 4 1 6 0 = -1 := by
  refine ⟨rfl, ?_, ?_, ?_⟩
  · simp [cand_iou, decode_box, truth_box, float_to_box, scen_forwarded, scen_layer,
      scen_state, probe_collab, forward_output]
    norm_num
  · simp [cand_rmse, decode_box, truth_box, float_to_box, scen_forwarded, scen_layer,
      scen_state, probe_collab, forward_output]
    norm_num
  · simp [cell_best_index, match_loop, for_loop, match_body, decode_box, select_step,
      truth_box, float_to_box, forced_index, random_index, random_active, scen_forwarded,
      scen_layer, scen_state, probe_collab, forward_output]
    norm_num

/-- C4 at the scenario: for cell 1 the index computed at line 176 is `-1`, and with forced
mode on it is `1`; neither lies in `[0, n)` for `n = 1`. -/
theorem best_index_out_of_range_at_scenario :
    ¬ (0 ≤ cell_best_index probe_collab scen_forwarded scen_state 0 4 1 6 0 ∧
        cell_best_index probe_collab scen_forwarded scen_state 0 4 1 6 0 < scen_forwarded.n) ∧
      ¬ (0 ≤ cell_best_index probe_collab { scen_forwarded with forced := 1 } scen_state 0 4 1 6 0 ∧
        cell_best_index probe_collab { scen_forwarded with forced := 1 } scen_state 0 4 1 6 0
          < scen_forwarded.n) := by
  have h1 : cell_best_index probe_collab scen_forwarded scen_state 0 4 1 6 0 = -1 := by
    simp [cell_best_index, match_loop, for_loop, match_body, decode_box, select_step,
      truth_box, float_to_box, forced_index, random_index, random_active, scen_forwarded,
      scen_layer, scen_state, probe_collab, forward_output]
    norm_num
  have h2 : cell_best_index probe_collab { scen_forwarded with forced := 1 } scen_state
      0 4 1 6 0 = 1 := by
    simp [cell_best_index, forced_index, random_index, random_active, scen_forwarded,
      scen_layer, scen_state, truth_box, float_to_box]
    norm_num
  rw [h1, h2]
  have hn : scen_forwarded.n = 1 := rfl
  rw [hn]
  decide

/-! ## The gradient buffer at the scenario -/

/-- C6 at the scenario: cell 0 has presence flag `0`, yet after the training call its
objectness gradient entry (offset 4) is `1` instead of `noobject_scale * (0 - predicted) = 0`
and its first box-coordinate gradient entry (offset 8) is `5/2` instead of `0`: both were
written by cell 1, whose `best_index` is `-1`. -/
theorem object_free_cell_overwritten_at_scenario :
    float_to_int (scen_state.truth 0) = 0 ∧
      scen_layer.noobject_scale
          * (0 - (forward_detection_layer probe_collab scen_layer scen_state).output 4) = 0 ∧
      (forward_detection_layer probe_collab scen_layer scen_state).delta 4 = 1 ∧
      (forward_detection_layer probe_collab scen_layer scen_state).delta 8 = 5 / 2 := by
  refine ⟨?_, ?_, ?_, ?_⟩
  · simp [float_to_int, scen_state]
  · simp [forward_detection_layer, forward_output, scen_layer, scen_state]
  · simp [forward_detection_layer, train_loops, cell_body, matched_body, noobj_body,
      class_body, cell_best_index, match_loop, for_loop, match_body, decode_box, select_step,
      truth_box, float_to_box, forced_index, random_index, random_active, scen_layer,
      scen_state, probe_collab, forward_output, store, float_to_int]
    norm_num
  · simp [forward_detection_layer, train_loops, cell_body, matched_body, noobj_body,
      class_body, cell_best_index, match_loop, for_loop, match_body, decode_box, select_step,
      truth_box, float_to_box, forced_index, random_index, random_active, scen_layer,
      scen_state, probe_collab, forward_output, store, float_to_int]
    norm_num

/-- C7 at the scenario: predictor 0 of the object-free cell 0 of batch element 0 sits at
offset `0*inputs + side*side*classes + 0*n + 0 = 4`; after the training call the gradient
there differs from `noobject_scale * (0 - predicted objectness)`. -/
theorem noobject_entry_overwritten_at_scenario :
    0 * scen_layer.inputs + scen_layer.side * scen_layer.side * scen_layer.classes
        + 0 * scen_layer.n + 0 = 4 ∧
      float_to_int (scen_state.truth 0) = 0 ∧
      (forward_detection_layer probe_collab scen_layer scen_state).delta 4
        ≠ scen_layer.noobject_scale
          * (0 - (forward_detection_layer probe_collab scen_layer scen_state).output 4) := by
  refine ⟨by decide, ?_, ?_⟩
  · simp [float_to_int, scen_state]
  · have h1 : (forward_detection_layer probe_collab scen_layer scen_state).delta 4 = 1 := by
      simp [forward_detection_layer, train_loops, cell_body, matched_body, noobj_body,
        class_body, cell_best_index, match_loop, for_loop, match_body, decode_box,
        select_step, truth_box, float_to_box, forced_index, random_index, random_active,
        scen_layer, scen_state, probe_collab, forward_output, store, float_to_int]
      norm_num
    have h2 : (forward_detection_layer probe_collab scen_layer scen_state).output 4 = 0 := by
      simp [forward_detection_layer, forward_output, scen_layer, scen_state]
    rw [h1, h2]
    norm_num

/-! ## The cost -/

theorem sum_squares_eq_sum (a : Int → ℚ) (n : Nat) :
    sum_squares a n = ∑ k in Finset.range n, a k ^ 2 := by
  unfold sum_squares
  induction n with
  | zero => rfl
  | succ m ih =>
    rw [Finset.sum_range_succ, ← ih]
    show for_loop m (fun k s => s + a k * a k) 0 + a m * a m = _
    rw [pow_two]

/-- C8: after a training call on a layer with `outputs = inputs`, and provided the square
root taken inside `mag_array` is exact on the sum of squares of the gradient buffer, the cost
is the sum of the squares of all `batch*inputs` gradient entries; it is never negative and it
is zero exactly when every one of those entries is zero. -/
theorem cost_is_sum_of_squares (E : collab) (l : detection_layer) (state : network_state)
    (htrain : state.train ≠ 0) (hout : l.outputs = l.inputs)
    (hsqrt : E.sqrtf (∑ k in Finset.range (l.batch * l.inputs).toNat,
          (forward_detection_layer E l state).delta k ^ 2) ^ 2
        = ∑ k in Finset.range (l.batch * l.inputs).toNat,
          (forward_detection_layer E l state).delta k ^ 2) :
    (forward_detection_layer E l state).cost
        = ∑ k in Finset.range (l.batch * l.inputs).toNat,
          (forward_detection_layer E l state).delta k ^ 2 ∧
      0 ≤ (forward_detection_layer E l state).cost ∧
      ((forward_detection_layer E l state).cost = 0 ↔
        ∀ k : Nat, (k : Int) < l.batch * l.inputs →
          (forward_detection_layer E l state).delta k = 0) := by
  have hcost : (forward_detection_layer E l state).cost
      = ∑ k in Finset.range (l.batch * l.inputs).toNat,
          (forward_detection_layer E l state).delta k ^ 2 := by
    rw [← hsqrt]
    simp only [forward_detection_layer, if_pos htrain, mag_array, sum_squares_eq_sum, hout,
      mul_comm l.inputs l.batch]
  refine ⟨hcost, ?_, ?_⟩
  · rw [hcost]
    exact Finset.sum_nonneg (fun k _ => sq_nonneg _)
  · rw [hcost, Finset.sum_eq_zero_iff_of_nonneg (fun k _ => sq_nonneg _)]
    constructor
    · intro h k hk
      have := h k (Finset.mem_range.2 (by omega))
      exact pow_eq_zero_iff (two_ne_zero) |>.1 this
    · intro h k hk
      rw [h k (by have := Finset.mem_range.1 hk; omega)]
      norm_num

theorem cost_is_sum_of_squares_witness :
    (forward_detection_layer probe_collab unit_layer unit_state).cost
        = ∑ k in Finset.range (unit_layer.batch * unit_layer.inputs).toNat,
          (forward_detection_layer probe_collab unit_layer unit_state).delta k ^ 2 ∧
      0 ≤ (forward_detection_layer probe_collab unit_layer unit_state).cost ∧
      ((forward_detection_layer probe_collab unit_layer unit_state).cost = 0 ↔
        ∀ k : Nat, (k : Int) < unit_layer.batch * unit_layer.inputs →
          (forward_detection_layer probe_collab unit_layer unit_state).delta k = 0) :=
  cost_is_sum_of_squares probe_collab unit_layer unit_state (by decide) rfl (by
    have h5 : (unit_layer.batch * unit_layer.inputs).toNat = 5 := by decide
    rw [h5]
    simp [Finset.sum_range_succ, forward_detection_layer, train_loops, cell_body, noobj_body,
      for_loop, unit_layer, unit_state, probe_collab, forward_output, store, float_to_int]
    norm_num)

/-! ## `get_detection_boxes` -/

theorem index_inj (n : Int) (i i2 k k2 : Nat) (hk : (k : Int) < n) (hk2 : (k2 : Int) < n)
    (h : (i : Int) * n + k = (i2 : Int) * n + k2) : i = i2 ∧ k = k2 := by
  have hn : (0 : Int) < n := by omega
  have hi : i = i2 := by
    rcases Nat.lt_trichotomy i i2 with hlt | heq | hgt
    · exfalso
      have h1 : (i : Int) + 1 ≤ i2 := by omega
      nlinarith [mul_le_mul_of_nonneg_right h1 hn.le]
    · exact heq
    · exfalso
      have h1 : (i2 : Int) + 1 ≤ i := by omega
      nlinarith [mul_le_mul_of_nonneg_right h1 hn.le]
  subst hi
  exact ⟨rfl, by omega⟩

theorem prob_body_apply (l : detection_layer) (thresh scale : ℚ) (i index : Int) (j : Nat)
    (q : Int → Int → ℚ) (r u : Int) :
    prob_body l thresh scale i index j q r u
      = if r = index ∧ u = j then
          (if scale * l.output (i * l.classes + j) > thresh
            then scale * l.output (i * l.classes + j) else 0)
        else q r u := rfl

theorem prob_loop_apply (l : detection_layer) (thresh scale : ℚ) (i index : Int) (C : Nat)
    (p : Int → Int → ℚ) (r : Int) (c : Nat) :
    for_loop C (prob_body l thresh scale i index) p r c
      = if r = index ∧ c < C then
          (if scale * l.output (i * l.classes + c) > thresh
            then scale * l.output (i * l.classes + c) else 0)
        else p r c := by
  induction C with
  | zero => simp [for_loop]
  | succ m ih =>
    rw [show for_loop (m + 1) (prob_body l thresh scale i index) p
        = prob_body l thresh scale i index m (for_loop m (prob_body l thresh scale i index) p)
      from rfl, prob_body_apply, ih]
    by_cases hr : r = index
    · by_cases hc : c = m
      · subst hc
        simp [hr]
      · have hcm : ¬ ((c : Int) = (m : Int)) := by omega
        rw [if_neg (fun h => hcm h.2)]
        by_cases hlt : c < m
        · simp [hr, hlt, Nat.lt_succ_of_lt hlt]
        · have : ¬ c < m + 1 := by omega
          simp [hr, hlt, this]
    · rw [if_neg (fun h => hr h.1)]
      simp [hr]

theorem predictor_body_other (l : detection_layer) (w h : Int) (thresh : ℚ) (oo : Int)
    (i : Int) (k : Nat) (o : det_out) (r : Int) (hr : r ≠ i * l.n + k) :
    (predictor_body l w h thresh oo i k o).boxes r = o.boxes r ∧
      ∀ c : Nat, (predictor_body l w h thresh oo i k o).probs r c = o.probs r c := by
  constructor
  · simp [predictor_body, store, hr]
  · intro c
    unfold predictor_body
    simp only []
    split
    · simp only [store2, if_neg (fun h : r = i * l.n + k ∧ (c : Int) = 0 => hr h.1)]
      rw [prob_loop_apply]
      simp [hr]
    · rw [prob_loop_apply]
      simp [hr]

theorem predictor_body_self (l : detection_layer) (w h : Int) (thresh : ℚ) (oo : Int)
    (i k : Nat) (o : det_out) :
    record_ok l w h thresh oo (predictor_body l w h thresh oo i k o) i k := by
  constructor
  · simp [predictor_body, store]
  · intro j hj
    unfold predictor_body decoded_prob
    simp only []
    by_cases hoo : oo ≠ 0
    · rw [if_pos hoo]
      by_cases hj0 : j = 0
      · subst hj0
        simp [store2, hoo]
      · have hjc : (j : Int) < l.classes := by
          rcases hj with h | h
          · exact h
          · exact absurd h.2 hj0
        have hjz : ¬ ((j : Int) = 0) := by omega
        simp only [store2, if_neg (fun h : _ ∧ (j : Int) = 0 => hjz h.2),
          if_neg (fun h : oo ≠ 0 ∧ j = 0 => hj0 h.2)]
        rw [prob_loop_apply, if_pos ⟨rfl, by omega⟩]
    · have hjc : (j : Int) < l.classes := by
        rcases hj with h | h
        · exact h
        · exact absurd h.1 hoo
      rw [if_neg hoo, if_neg (fun h : oo ≠ 0 ∧ j = 0 => hoo h.1), prob_loop_apply,
        if_pos ⟨rfl, by omega⟩]

theorem record_ok_congr (l : detection_layer) (w h : Int) (thresh : ℚ) (oo : Int)
    (o o2 : det_out) (i k : Nat)
    (hb : o2.boxes (i * l.n + k) = o.boxes (i * l.n + k))
    (hp : ∀ c : Nat, o2.probs (i * l.n + k) c = o.probs (i * l.n + k) c)
    (hok : record_ok l w h thresh oo o i k) : record_ok l w h thresh oo o2 i k := by
  obtain ⟨h1, h2⟩ := hok
  exact ⟨hb.trans h1, fun j hj => (hp j).trans (h2 j hj)⟩

/-- The predictor loop of cell `I`: the records of cell `I` become right one by one, and the
records of the cells before `I` stay right. -/
theorem predictor_loop_ok (l : detection_layer) (w h : Int) (thresh : ℚ) (oo : Int)
    (I : Nat) (o : det_out)
    (hprev : ∀ i k : Nat, i < I → (k : Int) < l.n → record_ok l w h thresh oo o i k) :
    ∀ i k : Nat, i < I + 1 → (k : Int) < l.n →
      record_ok l w h thresh oo
        (for_loop l.n.toNat (predictor_body l w h thresh oo I) o) i k := by
  have key := for_loop_induct
    (fun (K : Nat) (t : det_out) =>
      (∀ i k : Nat, i < I → (k : Int) < l.n → record_ok l w h thresh oo t i k) ∧
      (∀ k : Nat, k < K → (k : Int) < l.n → record_ok l w h thresh oo t I k))
    l.n.toNat (predictor_body l w h thresh oo I) o
    ⟨hprev, fun k hk => absurd hk (Nat.not_lt_zero k)⟩
    (by
      rintro K hK t ⟨h1, h2⟩
      have hKn : (K : Int) < l.n := by omega
      constructor
      · intro i k hi hk
        have hne : (i : Int) * l.n + k ≠ (I : Int) * l.n + K := by
          intro heq
          have := (index_inj l.n i I k K hk hKn heq).1
          omega
        obtain ⟨hb, hp⟩ := predictor_body_other l w h thresh oo I K t _ hne
        exact record_ok_congr l w h thresh oo t _ i k hb hp (h1 i k hi hk)
      · intro k hk hkn
        rcases Nat.lt_succ_iff_lt_or_eq.1 hk with hlt | heq
        · have hne : (I : Int) * l.n + k ≠ (I : Int) * l.n + K := by omega
          obtain ⟨hb, hp⟩ := predictor_body_other l w h thresh oo I K t _ hne
          exact record_ok_congr l w h thresh oo t _ I k hb hp (h2 k hlt hkn)
        · subst heq
          exact predictor_body_self l w h thresh oo I k t)
  intro i k hi hk
  rcases Nat.lt_succ_iff_lt_or_eq.1 hi with hlt | heq
  · exact key.1 i k hlt hk
  · subst heq
    exact key.2 k (by omega) hk

/-- After `get_detection_boxes`, every record `i*n + k` with `i < side*side` and `k < n`
holds what predictor `k` of cell `i` decodes to. -/
theorem get_detection_boxes_ok (l : detection_layer) (w h : Int) (thresh : ℚ)
    (probs : Int → Int → ℚ) (boxes : Int → box) (oo : Int) (i k : Nat)
    (hi : (i : Int) < l.side * l.side) (hk : (k : Int) < l.n) :
    record_ok l w h thresh oo (get_detection_boxes l w h thresh probs boxes oo) i k := by
  have key := for_loop_induct
    (fun (I : Nat) (t : det_out) =>
      ∀ i k : Nat, i < I → (k : Int) < l.n → record_ok l w h thresh oo t i k)
    (l.side * l.side).toNat
    (fun i o => for_loop l.n.toNat (predictor_body l w h thresh oo i) o)
    { probs := probs, boxes := boxes }
    (fun i k hi _ => absurd hi (Nat.not_lt_zero i))
    (fun I _ t ht => predictor_loop_ok l w h thresh oo I t ht)
  exact key i k (by omega) hk

/-- C9: for `side ≥ 1`, every cell `i < side*side` and predictor `k < n`, after
`get_detection_boxes` the record `boxes[i*n+k]` has `x = (cx + i mod side) / side * w`,
`y = (cy + i div side) / side * h`, width `pw^e * w` and height `ph^e * h`, where
`(cx, cy, pw, ph)` are the raw values at offset `side*side*(classes+n) + (i*n+k)*4` of the
prediction buffer and `e` is `2` under square-root encoding and `1` otherwise. The prediction
buffer is an input of the decoder only: its result consists of `probs` and `boxes`. -/
theorem get_detection_boxes_box (l : detection_layer) (w h : Int) (thresh : ℚ)
    (probs : Int → Int → ℚ) (boxes : Int → box) (only_objectness : Int) (i k : Nat)
    (hside : 1 ≤ l.side) (hi : (i : Int) < l.side * l.side) (hk : (k : Int) < l.n) :
    (get_detection_boxes l w h thresh probs boxes only_objectness).boxes (i * l.n + k)
      = { x := (l.output (l.side * l.side * (l.classes + l.n) + (i * l.n + k) * 4 + 0)
              + (((i : Int) % l.side : Int) : ℚ)) / l.side * w
          y := (l.output (l.side * l.side * (l.classes + l.n) + (i * l.n + k) * 4 + 1)
              + (((i : Int) / l.side : Int) : ℚ)) / l.side * h
          w := l.output (l.side * l.side * (l.classes + l.n) + (i * l.n + k) * 4 + 2)
              ^ (if l.sqrt ≠ 0 then 2 else 1) * w
          h := l.output (l.side * l.side * (l.classes + l.n) + (i * l.n + k) * 4 + 3)
              ^ (if l.sqrt ≠ 0 then 2 else 1) * h } := by
  rw [(get_detection_boxes_ok l w h thresh probs boxes only_objectness i k hi hk).1]
  have hi0 : (0 : Int) ≤ (i : Int) := Int.ofNat_nonneg i
  have hs0 : (0 : Int) ≤ l.side := by omega
  unfold decoded_box
  simp only [Int.tdiv_eq_ediv hi0 hs0, Int.tmod_eq_emod hi0 hs0]

theorem get_detection_boxes_box_witness :
    (get_detection_boxes pair_layer 100 200 0 (fun _ _ => 0) (fun _ => ⟨0, 0, 0, 0⟩) 0).boxes
        ((0 : Nat) * pair_layer.n + (1 : Nat))
      = { x := (pair_layer.output (pair_layer.side * pair_layer.side
                * (pair_layer.classes + pair_layer.n) + ((0 : Nat) * pair_layer.n + (1 : Nat)) * 4 + 0)
              + ((((0 : Nat) : Int) % pair_layer.side : Int) : ℚ)) / pair_layer.side * (100 : Int)
          y := (pair_layer.output (pair_layer.side * pair_layer.side
                * (pair_layer.classes + pair_layer.n) + ((0 : Nat) * pair_layer.n + (1 : Nat)) * 4 + 1)
              + ((((0 : Nat) : Int) / pair_layer.side : Int) : ℚ)) / pair_layer.side * (200 : Int)
          w := pair_layer.output (pair_layer.side * pair_layer.side
                * (pair_layer.classes + pair_layer.n) + ((0 : Nat) * pair_layer.n + (1 : Nat)) * 4 + 2)
              ^ (if pair_layer.sqrt ≠ 0 then 2 else 1) * (100 : Int)
          h := pair_layer.output (pair_layer.side * pair_layer.side
                * (pair_layer.classes + pair_layer.n) + ((0 : Nat) * pair_layer.n + (1 : Nat)) * 4 + 3)
              ^ (if pair_layer.sqrt ≠ 0 then 2 else 1) * (200 : Int) } :=
  get_detection_boxes_box pair_layer 100 200 0 (fun _ _ => 0) (fun _ => ⟨0, 0, 0, 0⟩) 0 0 1
    (by decide) (by decide) (by decide)

/-- C10: with `only_objectness = 0`, for every cell `i < side*side`, predictor `k < n` and
class `j < classes`, after `get_detection_boxes` the entry `probs[i*n+k][j]` is the product
`p` of the predictor's objectness and the cell's score for class `j` when `p > thresh`, and
`0` otherwise; a product equal to `thresh` gives `0`, and every entry is `0` or exceeds
`thresh`. -/
theorem get_detection_boxes_prob (l : detection_layer) (w h : Int) (thresh : ℚ)
    (probs : Int → Int → ℚ) (boxes : Int → box) (i k j : Nat)
    (hi : (i : Int) < l.side * l.side) (hk : (k : Int) < l.n) (hj : (j : Int) < l.classes) :
    (get_detection_boxes l w h thresh probs boxes 0).probs (i * l.n + k) j
        = (if l.output (l.side * l.side * l.classes + i * l.n + k) * l.output (i * l.classes + j)
              > thresh
            then l.output (l.side * l.side * l.classes + i * l.n + k)
              * l.output (i * l.classes + j)
            else 0) ∧
      (l.output (l.side * l.side * l.classes + i * l.n + k) * l.output (i * l.classes + j)
          = thresh →
        (get_detection_boxes l w h thresh probs boxes 0).probs (i * l.n + k) j = 0) ∧
      ((get_detection_boxes l w h thresh probs boxes 0).probs (i * l.n + k) j = 0 ∨
        thresh < (get_detection_boxes l w h thresh probs boxes 0).probs (i * l.n + k) j) := by
  have hval := (get_detection_boxes_ok l w h thresh probs boxes 0 i k hi hk).2 j (Or.inl hj)
  have hval2 : (get_detection_boxes l w h thresh probs boxes 0).probs (i * l.n + k) j
      = (if l.output (l.side * l.side * l.classes + i * l.n + k) * l.output (i * l.classes + j)
              > thresh
            then l.output (l.side * l.side * l.classes + i * l.n + k)
              * l.output (i * l.classes + j)
            else 0) := by
    rw [hval]
    simp [decoded_prob]
  refine ⟨hval2, ?_, ?_⟩
  · intro heq
    rw [hval2, if_neg (by rw [heq]; exact lt_irrefl _)]
  · rw [hval2]
    split
    · next hgt => exact Or.inr hgt
    · exact Or.inl rfl

theorem get_detection_boxes_prob_witness :
    (get_detection_boxes pair_layer 100 200 (81 / 100) (fun _ _ => 0) (fun _ => ⟨0, 0, 0, 0⟩)
          0).probs ((0 : Nat) * pair_layer.n + (1 : Nat)) (0 : Nat)
        = (if pair_layer.output (pair_layer.side * pair_layer.side * pair_layer.classes
                + (0 : Nat) * pair_layer.n + (1 : Nat))
              * pair_layer.output ((0 : Nat) * pair_layer.classes + (0 : Nat)) > 81 / 100
            then pair_layer.output (pair_layer.side * pair_layer.side * pair_layer.classes
                + (0 : Nat) * pair_layer.n + (1 : Nat))
              * pair_layer.output ((0 : Nat) * pair_layer.classes + (0 : Nat))
            else 0) ∧
      (pair_layer.output (pair_layer.side * pair_layer.side * pair_layer.classes
              + (0 : Nat) * pair_layer.n + (1 : Nat))
            * pair_layer.output ((0 : Nat) * pair_layer.classes + (0 : Nat)) = 81 / 100 →
        (get_detection_boxes pair_layer 100 200 (81 / 100) (fun _ _ => 0)
          (fun _ => ⟨0, 0, 0, 0⟩) 0).probs ((0 : Nat) * pair_layer.n + (1 : Nat)) (0 : Nat) = 0) ∧
      ((get_detection_boxes pair_layer 100 200 (81 / 100) (fun _ _ => 0)
          (fun _ => ⟨0, 0, 0, 0⟩) 0).probs ((0 : Nat) * pair_layer.n + (1 : Nat)) (0 : Nat) = 0 ∨
        81 / 100 < (get_detection_boxes pair_layer 100 200 (81 / 100) (fun _ _ => 0)
          (fun _ => ⟨0, 0, 0, 0⟩) 0).probs ((0 : Nat) * pair_layer.n + (1 : Nat)) (0 : Nat)) :=
  get_detection_boxes_prob pair_layer 100 200 (81 / 100) (fun _ _ => 0)
    (fun _ => ⟨0, 0, 0, 0⟩) 0 1 0 (by decide) (by decide) (by decide)

/-- C11: with `only_objectness ≠ 0`, for every cell `i < side*side` and predictor `k < n`,
after `get_detection_boxes` the entry `probs[i*n+k][0]` is the raw objectness of the
predictor, whatever the threshold, and every entry `probs[i*n+k][j]` with `1 ≤ j < classes`
is the value that the call with `only_objectness = 0` leaves there. -/
theorem get_detection_boxes_only_objectness (l : detection_layer) (w h : Int) (thresh : ℚ)
    (probs : Int → Int → ℚ) (boxes : Int → box) (only_objectness : Int) (i k : Nat)
    (hoo : only_objectness ≠ 0)
    (hi : (i : Int) < l.side * l.side) (hk : (k : Int) < l.n) :
    (get_detection_boxes l w h thresh probs boxes only_objectness).probs (i * l.n + k) 0
        = l.output (l.side * l.side * l.classes + i * l.n + k) ∧
      ∀ j : Nat, 1 ≤ j → (j : Int) < l.classes →
        (get_detection_boxes l w h thresh probs boxes only_objectness).probs (i * l.n + k) j
          = (get_detection_boxes l w h thresh probs boxes 0).probs (i * l.n + k) j := by
  have hon := (get_detection_boxes_ok l w h thresh probs boxes only_objectness i k hi hk).2
  have hoff := (get_detection_boxes_ok l w h thresh probs boxes 0 i k hi hk).2
  constructor
  · have h0 := hon 0 (Or.inr ⟨hoo, rfl⟩)
    simp only [Nat.cast_zero] at h0
    rw [h0]
    simp [decoded_prob, hoo]
  · intro j hj1 hjc
    rw [hon j (Or.inl hjc), hoff j (Or.inl hjc)]
    have hj0 : j ≠ 0 := by omega
    simp [decoded_prob, hj0]

theorem get_detection_boxes_only_objectness_witness :
    (get_detection_boxes pair_layer 100 200 (95 / 100) (fun _ _ => 0) (fun _ => ⟨0, 0, 0, 0⟩)
          1).probs ((0 : Nat) * pair_layer.n + (1 : Nat)) 0
        = pair_layer.output (pair_layer.side * pair_layer.side * pair_layer.classes
            + (0 : Nat) * pair_layer.n + (1 : Nat)) ∧
      ∀ j : Nat, 1 ≤ j → (j : Int) < pair_layer.classes →
        (get_detection_boxes pair_layer 100 200 (95 / 100) (fun _ _ => 0)
            (fun _ => ⟨0, 0, 0, 0⟩) 1).probs ((0 : Nat) * pair_layer.n + (1 : Nat)) j
          = (get_detection_boxes pair_layer 100 200 (95 / 100) (fun _ _ => 0)
            (fun _ => ⟨0, 0, 0, 0⟩) 0).probs ((0 : Nat) * pair_layer.n + (1 : Nat)) j :=
  get_detection_boxes_only_objectness pair_layer 100 200 (95 / 100) (fun _ _ => 0)
    (fun _ => ⟨0, 0, 0, 0⟩) 1 0 1 (by decide) (by decide) (by decide)

/-! ## `get_detection_detections` -/

/-- Two nested loops over cells `i < S` and predictors `k < n.toNat` whose body, at `(i, k)`,
makes record `i*n + k` right and leaves right every record with another index: afterwards
all records are right. -/
theorem grid_loop_ok {σ : Type} (n : Int) (S : Nat) (body : Nat → Nat → σ → σ)
    (ok : σ → Nat → Nat → Prop) (s : σ)
    (hself : ∀ (i k : Nat) (t : σ), ok (body i k t) i k)
    (hother : ∀ (i k i2 k2 : Nat) (t : σ), (i2 : Int) * n + k2 ≠ (i : Int) * n + k →
      ok t i2 k2 → ok (body i k t) i2 k2)
    (i k : Nat) (hi : i < S) (hk : (k : Int) < n) :
    ok (for_loop S (fun i t => for_loop n.toNat (body i) t) s) i k := by
  have inner : ∀ (I : Nat) (t : σ),
      (∀ i k : Nat, i < I → (k : Int) < n → ok t i k) →
      ∀ i k : Nat, i < I + 1 → (k : Int) < n → ok (for_loop n.toNat (body I) t) i k := by
    intro I t hprev
    have key := for_loop_induct
      (fun (K : Nat) (u : σ) =>
        (∀ i k : Nat, i < I → (k : Int) < n → ok u i k) ∧
        (∀ k : Nat, k < K → (k : Int) < n → ok u I k))
      n.toNat (body I) t
      ⟨hprev, fun k hk => absurd hk (Nat.not_lt_zero k)⟩
      (by
        rintro K hK u ⟨h1, h2⟩
        have hKn : (K : Int) < n := by omega
        constructor
        · intro i k hi hk
          refine hother I K i k u ?_ (h1 i k hi hk)
          intro heq
          have := (index_inj n i I k K hk hKn heq).1
          omega
        · intro k hk hkn
          rcases Nat.lt_succ_iff_lt_or_eq.1 hk with hlt | heq
          · exact hother I K I k u (by omega) (h2 k hlt hkn)
          · subst heq
            exact hself I k u)
    intro i k hi hk
    rcases Nat.lt_succ_iff_lt_or_eq.1 hi with hlt | heq
    · exact key.1 i k hlt hk
    · subst heq
      exact key.2 k (by omega) hk
  have outer := for_loop_induct
    (fun (I : Nat) (t : σ) => ∀ i k : Nat, i < I → (k : Int) < n → ok t i k)
    S (fun i t => for_loop n.toNat (body i) t) s
    (fun i k hi _ => absurd hi (Nat.not_lt_zero i))
    (fun I _ t ht => inner I t ht)
  exact outer i k hi hk

theorem det_prob_loop_other (l : detection_layer) (thresh scale : ℚ) (i index : Int) (C : Nat)
    (dets : Int → detection) (r : Int) (hr : r ≠ index) :
    for_loop C (det_prob_body l thresh scale i index) dets r = dets r := by
  induction C with
  | zero => rfl
  | succ m ih =>
    show store _ index _ r = _
    unfold store
    rw [if_neg hr]
    exact ih

theorem det_prob_loop_self (l : detection_layer) (thresh scale : ℚ) (i index : Int) (C : Nat)
    (dets : Int → detection) :
    (for_loop C (det_prob_body l thresh scale i index) dets index).bbox = (dets index).bbox ∧
      (for_loop C (det_prob_body l thresh scale i index) dets index).objectness
        = (dets index).objectness ∧
      ∀ c : Nat, c < C →
        (for_loop C (det_prob_body l thresh scale i index) dets index).prob c
          = if scale * l.output (i * l.classes + c) > thresh
            then scale * l.output (i * l.classes + c) else 0 := by
  induction C with
  | zero => exact ⟨rfl, rfl, fun c hc => absurd hc (Nat.not_lt_zero c)⟩
  | succ m ih =>
    obtain ⟨h1, h2, h3⟩ := ih
    have hstep : for_loop (m + 1) (det_prob_body l thresh scale i index) dets index
        = { for_loop m (det_prob_body l thresh scale i index) dets index with
            prob := store (for_loop m (det_prob_body l thresh scale i index) dets index).prob m
              (if scale * l.output (i * l.classes + m) > thresh
                then scale * l.output (i * l.classes + m) else 0) } := by
      show store _ index _ index = _
      unfold store
      rw [if_pos rfl]
    rw [hstep]
    refine ⟨h1, h2, ?_⟩
    intro c hc
    show store _ (m : Int) _ (c : Int) = _
    unfold store
    by_cases hcm : c = m
    · subst hcm
      rw [if_pos rfl]
    · have : ¬ ((c : Int) = (m : Int)) := by omega
      rw [if_neg this]
      exact h3 c (by omega)

theorem detection_body_other (l : detection_layer) (w h : Int) (thresh : ℚ) (i : Int)
    (k : Nat) (dets : Int → detection) (r : Int) (hr : r ≠ i * l.n + k) :
    detection_body l w h thresh i k dets r = dets r := by
  unfold detection_body
  simp only []
  rw [det_prob_loop_other _ _ _ _ _ _ _ _ hr]
  simp [store, hr]

theorem detection_body_self (l : detection_layer) (w h : Int) (thresh : ℚ) (i k : Nat)
    (dets : Int → detection) :
    detection_ok l w h thresh (detection_body l w h thresh i k dets) i k := by
  unfold detection_ok detection_body
  simp only []
  obtain ⟨h1, h2, h3⟩ := det_prob_loop_self l thresh
    (l.output (l.side * l.side * l.classes + i * l.n + k)) i (i * l.n + k) l.classes.toNat
    (store
      (store dets (i * l.n + k) { dets (i * l.n + k) with bbox := decoded_box l w h i k })
      (i * l.n + k)
      { store dets (i * l.n + k) { dets (i * l.n + k) with bbox := decoded_box l w h i k }
          (i * l.n + k) with
        objectness := l.output (l.side * l.side * l.classes + i * l.n + k) })
  refine ⟨?_, ?_, ?_⟩
  · rw [h1]; simp [store]
  · rw [h2]; simp [store]
  · intro j hj
    rw [h3 j (by omega)]
    simp [decoded_prob]

/-- After `get_detection_detections`, every record `i*n + k` with `i < side*side` and
`k < n` holds what predictor `k` of cell `i` decodes to. -/
theorem get_detection_detections_ok (l : detection_layer) (w h : Int) (thresh : ℚ)
    (dets : Int → detection) (i k : Nat)
    (hi : (i : Int) < l.side * l.side) (hk : (k : Int) < l.n) :
    detection_ok l w h thresh (get_detection_detections l w h thresh dets) i k := by
  unfold get_detection_detections
  refine grid_loop_ok l.n (l.side * l.side).toNat
    (fun i k t => detection_body l w h thresh i k t)
    (detection_ok l w h thresh) dets ?_ ?_ i k (by omega) hk
  · intro i k t
    exact detection_body_self l w h thresh i k t
  · intro i k i2 k2 t hne hok
    show detection_ok l w h thresh (detection_body l w h thresh i k t) i2 k2
    unfold detection_ok
    rw [detection_body_other l w h thresh i k t _ hne]
    exact hok

theorem record_index_range (n L : Int) (i k : Nat) (hi : (i : Int) < L) (hk : (k : Int) < n) :
    0 ≤ (i : Int) * n + k ∧ (i : Int) * n + k < L * n := by
  have hn : (0 : Int) < n := by omega
  have hi0 : (0 : Int) ≤ i := Int.ofNat_nonneg i
  have hk0 : (0 : Int) ≤ k := Int.ofNat_nonneg k
  constructor
  · have := mul_nonneg hi0 hn.le
    omega
  · have h1 : (i : Int) + 1 ≤ L := by omega
    have := mul_le_mul_of_nonneg_right h1 hn.le
    nlinarith

theorem record_index_cover (n L : Int) (r : Int) (hL : 0 ≤ L) (hr0 : 0 ≤ r) (hr : r < L * n) :
    ∃ i k : Nat, (i : Int) < L ∧ (k : Int) < n ∧ r = (i : Int) * n + k ∧
      ∀ i2 k2 : Nat, (k2 : Int) < n → r = (i2 : Int) * n + k2 → i2 = i ∧ k2 = k := by
  have hn : (0 : Int) < n := by
    by_contra hneg
    have hn0 : n ≤ 0 := not_lt.1 hneg
    have := mul_nonpos_of_nonneg_of_nonpos hL hn0
    omega
  have hq0 : 0 ≤ r / n := Int.ediv_nonneg hr0 hn.le
  have hm0 : 0 ≤ r % n := Int.emod_nonneg r (ne_of_gt hn)
  have hmn : r % n < n := Int.emod_lt_of_pos r hn
  have hqL : r / n < L := Int.ediv_lt_of_lt_mul hn hr
  have hdecomp : r = (r / n) * n + r % n := by
    have := Int.ediv_add_emod r n
    linarith [mul_comm n (r / n)]
  refine ⟨(r / n).toNat, (r % n).toNat, ?_, ?_, ?_, ?_⟩
  · rw [Int.toNat_of_nonneg hq0]; exact hqL
  · rw [Int.toNat_of_nonneg hm0]; exact hmn
  · rw [Int.toNat_of_nonneg hq0, Int.toNat_of_nonneg hm0]; exact hdecomp
  · intro i2 k2 hk2 hr2
    have hk' : (((r % n).toNat : Nat) : Int) < n := by
      rw [Int.toNat_of_nonneg hm0]; exact hmn
    have heq : (i2 : Int) * n + k2 = (((r / n).toNat : Nat) : Int) * n + ((r % n).toNat : Nat) := by
      rw [Int.toNat_of_nonneg hq0, Int.toNat_of_nonneg hm0, ← hr2]; exact hdecomp
    exact index_inj n i2 (r / n).toNat k2 (r % n).toNat hk2 hk' heq

/-- C20: for every cell `i < side*side` and predictor `k < n`, `get_detection_detections`
and `get_detection_boxes` with `only_objectness = 0` leave the same box in record `i*n+k`
and the same probability for every class `j < classes`, and the record's objectness is the
raw objectness of predictor `k` of cell `i`; the record indices `i*n+k` lie in
`[0, side*side*n)` and every index of that range is `i*n+k` for exactly one pair `(i, k)`. -/
theorem detections_agree_with_boxes (l : detection_layer) (w h : Int) (thresh : ℚ)
    (probs : Int → Int → ℚ) (boxes : Int → box) (dets : Int → detection) (i k : Nat)
    (hi : (i : Int) < l.side * l.side) (hk : (k : Int) < l.n) :
    (get_detection_detections l w h thresh dets (i * l.n + k)).bbox
        = (get_detection_boxes l w h thresh probs boxes 0).boxes (i * l.n + k) ∧
      (∀ j : Nat, (j : Int) < l.classes →
        (get_detection_detections l w h thresh dets (i * l.n + k)).prob j
          = (get_detection_boxes l w h thresh probs boxes 0).probs (i * l.n + k) j) ∧
      (get_detection_detections l w h thresh dets (i * l.n + k)).objectness
        = l.output (l.side * l.side * l.classes + i * l.n + k) ∧
      (0 ≤ (i : Int) * l.n + k ∧ (i : Int) * l.n + k < l.side * l.side * l.n) ∧
      (∀ r : Int, 0 ≤ r → r < l.side * l.side * l.n →
        ∃ i2 k2 : Nat, (i2 : Int) < l.side * l.side ∧ (k2 : Int) < l.n ∧
          r = (i2 : Int) * l.n + k2 ∧
          ∀ i3 k3 : Nat, (k3 : Int) < l.n → r = (i3 : Int) * l.n + k3 → i3 = i2 ∧ k3 = k2) := by
  obtain ⟨hd1, hd2, hd3⟩ := get_detection_detections_ok l w h thresh dets i k hi hk
  obtain ⟨hb1, hb2⟩ := get_detection_boxes_ok l w h thresh probs boxes 0 i k hi hk
  refine ⟨hd1.trans hb1.symm, ?_, hd2, record_index_range l.n (l.side * l.side) i k hi hk, ?_⟩
  · intro j hj
    rw [hd3 j hj, hb2 j (Or.inl hj)]
  · intro r hr0 hr
    exact record_index_cover l.n (l.side * l.side) r (mul_self_nonneg l.side) hr0 hr

theorem detections_agree_with_boxes_witness :
    (get_detection_detections pair_layer 100 200 (1 / 2)
        (fun _ => ⟨⟨0, 0, 0, 0⟩, 0, fun _ => 0⟩) ((0 : Nat) * pair_layer.n + (1 : Nat))).bbox
        = (get_detection_boxes pair_layer 100 200 (1 / 2) (fun _ _ => 0)
            (fun _ => ⟨0, 0, 0, 0⟩) 0).boxes ((0 : Nat) * pair_layer.n + (1 : Nat)) ∧
      (∀ j : Nat, (j : Int) < pair_layer.classes →
        (get_detection_detections pair_layer 100 200 (1 / 2)
            (fun _ => ⟨⟨0, 0, 0, 0⟩, 0, fun _ => 0⟩)
            ((0 : Nat) * pair_layer.n + (1 : Nat))).prob j
          = (get_detection_boxes pair_layer 100 200 (1 / 2) (fun _ _ => 0)
            (fun _ => ⟨0, 0, 0, 0⟩) 0).probs ((0 : Nat) * pair_layer.n + (1 : Nat)) j) ∧
      (get_detection_detections pair_layer 100 200 (1 / 2)
          (fun _ => ⟨⟨0, 0, 0, 0⟩, 0, fun _ => 0⟩)
          ((0 : Nat) * pair_layer.n + (1 : Nat))).objectness
        = pair_layer.output (pair_layer.side * pair_layer.side * pair_layer.classes
            + (0 : Nat) * pair_layer.n + (1 : Nat)) ∧
      (0 ≤ ((0 : Nat) : Int) * pair_layer.n + (1 : Nat) ∧
        ((0 : Nat) : Int) * pair_layer.n + (1 : Nat)
          < pair_layer.side * pair_layer.side * pair_layer.n) ∧
      (∀ r : Int, 0 ≤ r → r < pair_layer.side * pair_layer.side * pair_layer.n →
        ∃ i2 k2 : Nat, (i2 : Int) < pair_layer.side * pair_layer.side ∧
          (k2 : Int) < pair_layer.n ∧ r = (i2 : Int) * pair_layer.n + k2 ∧
          ∀ i3 k3 : Nat, (k3 : Int) < pair_layer.n → r = (i3 : Int) * pair_layer.n + k3 →
            i3 = i2 ∧ k3 = k2) :=
  detections_agree_with_boxes pair_layer 100 200 (1 / 2) (fun _ _ => 0)
    (fun _ => ⟨0, 0, 0, 0⟩) (fun _ => ⟨⟨0, 0, 0, 0⟩, 0, fun _ => 0⟩) 0 1 (by decide) (by decide)

/-! ## Addressing -/

theorem radix_range (a A r m : Int) (ha0 : 0 ≤ a) (ha : a < A) (hr0 : 0 ≤ r) (hr : r < m) :
    0 ≤ a * m + r ∧ a * m + r < A * m := by
  have hm : 0 < m := by omega
  constructor
  · have := mul_nonneg ha0 hm.le
    omega
  · have h1 : a + 1 ≤ A := by omega
    have := mul_le_mul_of_nonneg_right h1 hm.le
    nlinarith

theorem radix_inj (a a2 r r2 m : Int) (hr0 : 0 ≤ r) (hr : r < m) (hr20 : 0 ≤ r2)
    (hr2 : r2 < m) (h : a * m + r = a2 * m + r2) : a = a2 ∧ r = r2 := by
  have hm : 0 < m := by omega
  have ha : a = a2 := by
    rcases lt_trichotomy a a2 with hlt | heq | hgt
    · exfalso
      have h1 : a + 1 ≤ a2 := by omega
      nlinarith [mul_le_mul_of_nonneg_right h1 hm.le]
    · exact heq
    · exfalso
      have h1 : a2 + 1 ≤ a := by omega
      nlinarith [mul_le_mul_of_nonneg_right h1 hm.le]
  subst ha
  exact ⟨rfl, by omega⟩

theorem field_offset_eq (l : detection_layer) (b : Int) (x : tensor_field)
    (hcoords : l.coords = 4) : field_offset l b x = b * l.inputs + field_local l x := by
  cases x with
  | cls i j => simp only [field_offset, field_local, train_class_offset]; ring
  | obj i k => simp only [field_offset, field_local, train_obj_offset]; ring
  | coord i k f => simp only [field_offset, field_local, train_box_offset, hcoords]; ring

/-- Where the local offset of a valid field lies: class scores first, then objectness
scores, then box coordinates. -/
theorem field_local_range (l : detection_layer) (x : tensor_field) (hx : field_valid l x) :
    match x with
    | .cls _ _ => 0 ≤ field_local l x ∧ field_local l x < l.side * l.side * l.classes
    | .obj _ _ => l.side * l.side * l.classes ≤ field_local l x ∧
        field_local l x < l.side * l.side * l.classes + l.side * l.side * l.n
    | .coord _ _ _ =>
        l.side * l.side * l.classes + l.side * l.side * l.n ≤ field_local l x ∧
        field_local l x
          < l.side * l.side * l.classes + l.side * l.side * l.n + l.side * l.side * l.n * 4 := by
  cases x with
  | cls i j =>
    obtain ⟨hi, hj⟩ := hx
    exact radix_range i (l.side * l.side) j l.classes (Int.ofNat_nonneg i) hi
      (Int.ofNat_nonneg j) hj
  | obj i k =>
    obtain ⟨hi, hk⟩ := hx
    have := radix_range i (l.side * l.side) k l.n (Int.ofNat_nonneg i) hi
      (Int.ofNat_nonneg k) hk
    simp only [field_local]
    omega
  | coord i k f =>
    obtain ⟨hi, hk, hf⟩ := hx
    have h1 := radix_range i (l.side * l.side) k l.n (Int.ofNat_nonneg i) hi
      (Int.ofNat_nonneg k) hk
    have h2 := radix_range ((i : Int) * l.n + k) (l.side * l.side * l.n) f 4 h1.1 h1.2
      (Int.ofNat_nonneg f) (by omega)
    simp only [field_local]
    omega

theorem field_local_inj (l : detection_layer) (x y : tensor_field)
    (hx : field_valid l x) (hy : field_valid l y) (h : field_local l x = field_local l y) :
    x = y := by
  have rx := field_local_range l x hx
  have ry := field_local_range l y hy
  cases x with
  | cls i j =>
    cases y with
    | cls i2 j2 =>
      obtain ⟨hi, hj⟩ := hx
      obtain ⟨hi2, hj2⟩ := hy
      simp only [field_local] at h
      obtain ⟨e1, e2⟩ := radix_inj i i2 j j2 l.classes (Int.ofNat_nonneg j) hj
        (Int.ofNat_nonneg j2) hj2 h
      rw [Int.ofNat_inj.1 e1, Int.ofNat_inj.1 e2]
    | obj i2 k2 => simp only [] at rx ry; omega
    | coord i2 k2 f2 => simp only [] at rx ry; omega
  | obj i k =>
    cases y with
    | cls i2 j2 => simp only [] at rx ry; omega
    | obj i2 k2 =>
      obtain ⟨hi, hk⟩ := hx
      obtain ⟨hi2, hk2⟩ := hy
      simp only [field_local] at h
      obtain ⟨e1, e2⟩ := radix_inj i i2 k k2 l.n (Int.ofNat_nonneg k) hk
        (Int.ofNat_nonneg k2) hk2 (by omega)
      rw [Int.ofNat_inj.1 e1, Int.ofNat_inj.1 e2]
    | coord i2 k2 f2 => simp only [] at rx ry; omega
  | coord i k f =>
    cases y with
    | cls i2 j2 => simp only [] at rx ry; omega
    | obj i2 k2 => simp only [] at rx ry; omega
    | coord i2 k2 f2 =>
      obtain ⟨hi, hk, hf⟩ := hx
      obtain ⟨hi2, hk2, hf2⟩ := hy
      simp only [field_local] at h
      obtain ⟨e0, e3⟩ := radix_inj ((i : Int) * l.n + k) ((i2 : Int) * l.n + k2) f f2 4
        (Int.ofNat_nonneg f) (by omega) (Int.ofNat_nonneg f2) (by omega) (by omega)
      obtain ⟨e1, e2⟩ := radix_inj i i2 k k2 l.n (Int.ofNat_nonneg k) hk
        (Int.ofNat_nonneg k2) hk2 e0
      rw [Int.ofNat_inj.1 e1, Int.ofNat_inj.1 e2, Int.ofNat_inj.1 e3]

/-- C19: under the construction identity `inputs = side*side*((1+coords)*n + classes)` with
`coords = 4` (and `n`, `classes` not negative), every class, objectness and box offset of
batch element `b` with indices in range lies in `[b*inputs, (b+1)*inputs)`; two fields with
the same offset are the same field of the same batch element; and every offset of the slice
`[b*inputs, (b+1)*inputs)` is the offset of a field, so the three blocks partition the
slice. -/
theorem offsets_partition_slice (l : detection_layer) (hcoords : l.coords = 4)
    (hid : l.inputs = l.side * l.side * ((1 + l.coords) * l.n + l.classes))
    (hn : 0 ≤ l.n) (hclasses : 0 ≤ l.classes) :
    (∀ (b : Int) (x : tensor_field), field_valid l x →
        b * l.inputs ≤ field_offset l b x ∧ field_offset l b x < (b + 1) * l.inputs) ∧
      (∀ (b b2 : Int) (x y : tensor_field), field_valid l x → field_valid l y →
        field_offset l b x = field_offset l b2 y → b = b2 ∧ x = y) ∧
      (∀ (b t : Int), b * l.inputs ≤ t → t < (b + 1) * l.inputs →
        ∃ x : tensor_field, field_valid l x ∧ field_offset l b x = t) := by
  have hL : 0 ≤ l.side * l.side := mul_self_nonneg l.side
  have hP : 0 ≤ l.side * l.side * l.classes := mul_nonneg hL hclasses
  have hQ : 0 ≤ l.side * l.side * l.n := mul_nonneg hL hn
  have hin : l.inputs = l.side * l.side * l.classes + l.side * l.side * l.n
      + l.side * l.side * l.n * 4 := by
    rw [hid, hcoords]; ring
  have hloc : ∀ x : tensor_field, field_valid l x →
      0 ≤ field_local l x ∧ field_local l x < l.inputs := by
    intro x hx
    have r := field_local_range l x hx
    cases x with
    | cls i j => simp only [] at r; omega
    | obj i k => simp only [] at r; omega
    | coord i k f => simp only [] at r; omega
  refine ⟨?_, ?_, ?_⟩
  · intro b x hx
    rw [field_offset_eq l b x hcoords]
    have := hloc x hx
    constructor
    · omega
    · have : (b + 1) * l.inputs = b * l.inputs + l.inputs := by ring
      omega
  · intro b b2 x y hx hy h
    rw [field_offset_eq l b x hcoords, field_offset_eq l b2 y hcoords] at h
    obtain ⟨hx0, hx1⟩ := hloc x hx
    obtain ⟨hy0, hy1⟩ := hloc y hy
    obtain ⟨e1, e2⟩ := radix_inj b b2 (field_local l x) (field_local l y) l.inputs
      hx0 hx1 hy0 hy1 h
    exact ⟨e1, field_local_inj l x y hx hy e2⟩
  · intro b t ht0 ht1
    have hexp : (b + 1) * l.inputs = b * l.inputs + l.inputs := by ring
    by_cases h1 : t - b * l.inputs < l.side * l.side * l.classes
    · obtain ⟨i, j, hi, hj, hr, -⟩ := record_index_cover l.classes (l.side * l.side)
        (t - b * l.inputs) hL (by omega) h1
      refine ⟨.cls i j, ⟨hi, hj⟩, ?_⟩
      rw [field_offset_eq l b _ hcoords]
      simp only [field_local]
      omega
    · by_cases h2 : t - b * l.inputs - l.side * l.side * l.classes < l.side * l.side * l.n
      · obtain ⟨i, k, hi, hk, hr, -⟩ := record_index_cover l.n (l.side * l.side)
          (t - b * l.inputs - l.side * l.side * l.classes) hL (by omega) h2
        refine ⟨.obj i k, ⟨hi, hk⟩, ?_⟩
        rw [field_offset_eq l b _ hcoords]
        simp only [field_local]
        omega
      · obtain ⟨q, f, hq, hf, hr, -⟩ := record_index_cover 4 (l.side * l.side * l.n)
          (t - b * l.inputs - l.side * l.side * l.classes - l.side * l.side * l.n) hQ
          (by omega) (by omega)
        obtain ⟨i, k, hi, hk, hr2, -⟩ := record_index_cover l.n (l.side * l.side)
          q hL (Int.ofNat_nonneg q) hq
        refine ⟨.coord i k f, ⟨hi, hk, by omega⟩, ?_⟩
        rw [field_offset_eq l b _ hcoords]
        simp only [field_local]
        rw [← hr2]
        omega

theorem offsets_partition_slice_witness :
    (∀ (b : Int) (x : tensor_field), field_valid pair_layer x →
        b * pair_layer.inputs ≤ field_offset pair_layer b x ∧
        field_offset pair_layer b x < (b + 1) * pair_layer.inputs) ∧
      (∀ (b b2 : Int) (x y : tensor_field), field_valid pair_layer x → field_valid pair_layer y →
        field_offset pair_layer b x = field_offset pair_layer b2 y → b = b2 ∧ x = y) ∧
      (∀ (b t : Int), b * pair_layer.inputs ≤ t → t < (b + 1) * pair_layer.inputs →
        ∃ x : tensor_field, field_valid pair_layer x ∧ field_offset pair_layer b x = t) :=
  offsets_partition_slice pair_layer rfl (by decide) (by decide) (by decide)

/-- C18, as stated, fails: `make_detection_layer` accepts `coords = 1` (`side = 2`, `n = 1`,
`classes = 1`, `inputs = 12`), and for that layer the decoders read the box of cell 1 from
offset 12 while the training path reads it from offset 9. -/
theorem decoder_box_offset_differs :
    ¬ (∀ l : detection_layer, make_detection_layer 1 12 1 2 1 1 0 = some l →
        infer_box_offset l 1 0 0 = train_box_offset l 0 1 0 0) := by
  intro h
  have := h _ rfl
  revert this
  decide

/-- C18, amended: for every layer with `coords = 4`, the offsets at which the decoders
`get_detection_boxes` and `get_detection_detections` read a class score, an objectness score
and a box field are the offsets that `forward_detection_layer` uses for the same cell,
predictor and field in batch element 0. -/
theorem decoder_offsets_match_training (l : detection_layer) (i k j f : Int)
    (hcoords : l.coords = 4) :
    infer_class_offset l i j = train_class_offset l 0 i j ∧
      infer_obj_offset l i k = train_obj_offset l 0 i k ∧
      infer_box_offset l i k f = train_box_offset l 0 i k f := by
  simp only [infer_class_offset, train_class_offset, infer_obj_offset, train_obj_offset,
    infer_box_offset, train_box_offset, hcoords]
  refine ⟨by ring, by ring, by ring⟩

theorem decoder_offsets_match_training_witness :
    infer_class_offset pair_layer 0 0 = train_class_offset pair_layer 0 0 0 ∧
      infer_obj_offset pair_layer 0 1 = train_obj_offset pair_layer 0 0 1 ∧
      infer_box_offset pair_layer 0 1 2 = train_box_offset pair_layer 0 0 1 2 :=
  decoder_offsets_match_training pair_layer 0 1 0 2 rfl

/-! ## The offsets in the embedded functions -/

theorem decoded_box_reads (l : detection_layer) (w h : Int) (i k : Nat) :
    decoded_box l w h i k
      = { x := (l.output (infer_box_offset l i k 0) + Int.tmod i l.side) / l.side * w
          y := (l.output (infer_box_offset l i k 1) + Int.tdiv i l.side) / l.side * h
          w := l.output (infer_box_offset l i k 2) ^ (if l.sqrt ≠ 0 then 2 else 1) * w
          h := l.output (infer_box_offset l i k 3) ^ (if l.sqrt ≠ 0 then 2 else 1) * h } :=
  rfl

theorem decoded_prob_reads (l : detection_layer) (thresh : ℚ) (oo : Int) (i k j : Nat) :
    decoded_prob l thresh oo i k j
      = if oo ≠ 0 ∧ j = 0 then l.output (infer_obj_offset l i k)
        else if l.output (infer_obj_offset l i k) * l.output (infer_class_offset l i j) > thresh
          then l.output (infer_obj_offset l i k) * l.output (infer_class_offset l i j)
          else 0 :=
  rfl

theorem noobj_body_writes (l : detection_layer) (b i : Int) (j : Nat) (a : fwd_acc) :
    (noobj_body l (b * l.inputs) (l.side * l.side) i j a).delta
      = store a.delta (train_obj_offset l b i j)
          (l.noobject_scale * (0 - l.output (train_obj_offset l b i j))) :=
  rfl

theorem class_body_writes (l : detection_layer) (state : network_state) (b i truth_index : Int)
    (j : Nat) (a : fwd_acc) :
    (class_body l state (b * l.inputs + i * l.classes) truth_index j a).delta
      = store a.delta (train_class_offset l b i j)
          (l.class_scale
            * (state.truth (truth_index + 1 + j) - l.output (train_class_offset l b i j))) :=
  rfl

theorem decode_box_reads (l : detection_layer) (b i j : Int) :
    decode_box l (b * l.inputs) (l.side * l.side) i j
      = (if l.sqrt ≠ 0 then
          { x := l.output (train_box_offset l b i j 0) / l.side
            y := l.output (train_box_offset l b i j 1) / l.side
            w := l.output (train_box_offset l b i j 2) * l.output (train_box_offset l b i j 2)
            h := l.output (train_box_offset l b i j 3) * l.output (train_box_offset l b i j 3) }
        else
          { x := l.output (train_box_offset l b i j 0) / l.side
            y := l.output (train_box_offset l b i j 1) / l.side
            w := l.output (train_box_offset l b i j 2)
            h := l.output (train_box_offset l b i j 3) }) := by
  unfold decode_box float_to_box train_box_offset
  simp only [add_zero]

/-! ## Cells with an object -/

theorem class_loop_fields (l : detection_layer) (state : network_state)
    (class_index truth_index : Int) (C : Nat) (a : fwd_acc) :
    (for_loop C (class_body l state class_index truth_index) a).count = a.count ∧
      (for_loop C (class_body l state class_index truth_index) a).rand_calls = a.rand_calls := by
  induction C with
  | zero => exact ⟨rfl, rfl⟩
  | succ m ih => exact ih

theorem class_loop_delta (l : detection_layer) (state : network_state)
    (class_index truth_index : Int) (C : Nat) (a : fwd_acc) :
    (∀ j : Nat, j < C →
        (for_loop C (class_body l state class_index truth_index) a).delta (class_index + j)
          = l.class_scale
            * (state.truth (truth_index + 1 + j) - l.output (class_index + j))) ∧
      (∀ t : Int, (∀ j : Nat, j < C → t ≠ class_index + j) →
        (for_loop C (class_body l state class_index truth_index) a).delta t = a.delta t) := by
  induction C with
  | zero =>
    exact ⟨fun j hj => absurd hj (Nat.not_lt_zero j), fun t _ => rfl⟩
  | succ m ih =>
    obtain ⟨ih1, ih2⟩ := ih
    have hstep : ∀ t : Int,
        (for_loop (m + 1) (class_body l state class_index truth_index) a).delta t
          = if t = class_index + m then
              l.class_scale
                * (state.truth (truth_index + 1 + m) - l.output (class_index + m))
            else (for_loop m (class_body l state class_index truth_index) a).delta t :=
      fun t => rfl
    constructor
    · intro j hj
      rw [hstep]
      by_cases hjm : j = m
      · subst hjm
        rw [if_pos rfl]
      · rw [if_neg (by omega)]
        exact ih1 j (by omega)
    · intro t ht
      rw [hstep, if_neg (ht m (Nat.lt_succ_self m))]
      exact ih2 t (fun j hj => ht j (Nat.lt_succ_of_lt hj))

/-- The gradient buffer after lines 176-213, entry by entry: the last write to an offset is
the one that stays. -/
theorem matched_body_delta (E : collab) (l : detection_layer) (state : network_state)
    (index locations i truth_index best_index : Int) (a : fwd_acc) (t : Int) :
    (matched_body E l state index locations i truth_index best_index a).delta t
      = (if l.sqrt ≠ 0 ∧
            t = index + locations * (l.classes + l.n) + (i * l.n + best_index) * l.coords + 3
          then l.coord_scale * (E.sqrtf (state.truth (truth_index + 1 + l.classes + 3))
            - l.output t)
        else if l.sqrt ≠ 0 ∧
            t = index + locations * (l.classes + l.n) + (i * l.n + best_index) * l.coords + 2
          then l.coord_scale * (E.sqrtf (state.truth (truth_index + 1 + l.classes + 2))
            - l.output t)
        else if
            t = index + locations * (l.classes + l.n) + (i * l.n + best_index) * l.coords + 3
          then l.coord_scale * (state.truth (truth_index + 1 + l.classes + 3) - l.output t)
        else if
            t = index + locations * (l.classes + l.n) + (i * l.n + best_index) * l.coords + 2
          then l.coord_scale * (state.truth (truth_index + 1 + l.classes + 2) - l.output t)
        else if
            t = index + locations * (l.classes + l.n) + (i * l.n + best_index) * l.coords + 1
          then l.coord_scale * (state.truth (truth_index + 1 + l.classes + 1) - l.output t)
        else if
            t = index + locations * (l.classes + l.n) + (i * l.n + best_index) * l.coords + 0
          then l.coord_scale * (state.truth (truth_index + 1 + l.classes + 0) - l.output t)
        else if t = index + locations * l.classes + i * l.n + best_index then
          (if l.rescore ≠ 0 then
            l.object_scale
              * (E.box_iou (decode_box l index locations i best_index)
                  (truth_box l state truth_index) - l.output t)
          else l.object_scale * (1 - l.output t))
        else a.delta t) := by
  unfold matched_body store
  simp only []
  by_cases hs : l.sqrt ≠ 0 <;> by_cases hr : l.rescore ≠ 0 <;>
    simp only [hs, hr, if_true, if_false, true_and, false_and, not_false_eq_true, not_true_eq_false, ne_eq] <;>
    split_ifs <;> simp_all

/-- The iteration of a cell whose presence flag does not convert to `0`: the no-object loop,
the classification loop, then lines 176-213 with the index of line 176. -/
theorem cell_body_object (E : collab) (l : detection_layer) (state : network_state)
    (b : Int) (i : Nat) (a : fwd_acc)
    (hflag : float_to_int
      (state.truth ((b * (l.side * l.side) + i) * (1 + l.coords + l.classes))) ≠ 0) :
    ∃ a3 : fwd_acc,
      a3.delta = (for_loop l.classes.toNat
          (class_body l state (b * l.inputs + i * l.classes)
            ((b * (l.side * l.side) + i) * (1 + l.coords + l.classes)))
          (for_loop l.n.toNat (noobj_body l (b * l.inputs) (l.side * l.side) i) a)).delta ∧
      a3.count = a.count ∧
      cell_body E l state b i a
        = matched_body E l state (b * l.inputs) (l.side * l.side) i
            ((b * (l.side * l.side) + i) * (1 + l.coords + l.classes))
            (cell_best_index E l state (b * l.inputs) (l.side * l.side) i
              ((b * (l.side * l.side) + i) * (1 + l.coords + l.classes)) a.rand_calls) a3 := by
  obtain ⟨hc1, hr1, -⟩ := noobj_loop_fields l (b * l.inputs) (l.side * l.side) i l.n.toNat a
  obtain ⟨hc2, hr2⟩ := class_loop_fields l state (b * l.inputs + i * l.classes)
    ((b * (l.side * l.side) + i) * (1 + l.coords + l.classes)) l.classes.toNat
    (for_loop l.n.toNat (noobj_body l (b * l.inputs) (l.side * l.side) i) a)
  unfold cell_body
  simp only [if_neg hflag]
  rw [hr2, hr1]
  by_cases hra : random_active l state
  · simp only [if_pos hra]
    exact ⟨{ for_loop l.classes.toNat
          (class_body l state (b * l.inputs + i * l.classes)
            ((b * (l.side * l.side) + i) * (1 + l.coords + l.classes)))
          (for_loop l.n.toNat (noobj_body l (b * l.inputs) (l.side * l.side) i) a) with
        rand_calls := a.rand_calls + 1 }, rfl, by rw [← hc1, ← hc2], rfl⟩
  · simp only [if_neg hra]
    exact ⟨for_loop l.classes.toNat
          (class_body l state (b * l.inputs + i * l.classes)
            ((b * (l.side * l.side) + i) * (1 + l.coords + l.classes)))
          (for_loop l.n.toNat (noobj_body l (b * l.inputs) (l.side * l.side) i) a),
      rfl, by rw [← hc1, ← hc2], rfl⟩

/-! ## The end-to-end scenario -/

/-- The training walk on a `2 × 2` grid with one predictor and one class per cell, whose
cell 0 holds an object with box (0.5, 0.5, 0.4, 0.4) and class 0 and is predicted exactly
(class score and objectness 0.9), cells 1 to 3 holding no object. -/
theorem e2e_core (E : collab) (m : detection_layer) (state : network_state)
    (hbatch : m.batch = 1) (hinputs : m.inputs = 24) (hside : m.side = 2) (hn : m.n = 1)
    (hclasses : m.classes = 1) (hcoords : m.coords = 4)
    (hsqrt : m.sqrt = 0) (hforced : m.forced = 0) (hrandom : m.random = 0)
    (hP0 : m.output 0 = 9 / 10) (hP4 : m.output 4 = 9 / 10)
    (hP8 : m.output 8 = 1 / 2) (hP9 : m.output 9 = 1 / 2)
    (hP10 : m.output 10 = 2 / 5) (hP11 : m.output 11 = 2 / 5)
    (hT0 : state.truth 0 = 1) (hT1 : state.truth 1 = 1)
    (hT2 : state.truth 2 = 1 / 2) (hT3 : state.truth 3 = 1 / 2)
    (hT4 : state.truth 4 = 2 / 5) (hT5 : state.truth 5 = 2 / 5)
    (hT6 : state.truth 6 = 0) (hT12 : state.truth 12 = 0) (hT18 : state.truth 18 = 0)
    (hiou : E.box_iou ⟨1 / 4, 1 / 4, 2 / 5, 2 / 5⟩ ⟨1 / 4, 1 / 4, 2 / 5, 2 / 5⟩ = 1) :
    cand_iou E m state 0 4 0 0 0 = 1 ∧
      (∀ rc : Nat, cell_best_index E m state 0 4 0 0 rc = 0) ∧
      (train_loops E m state).delta 0 = m.class_scale * (1 / 10) ∧
      (train_loops E m state).delta 4 = m.object_scale * (1 / 10) ∧
      (train_loops E m state).delta 8 = 0 ∧ (train_loops E m state).delta 9 = 0 ∧
      (train_loops E m state).delta 10 = 0 ∧ (train_loops E m state).delta 11 = 0 := by
  have hbox : decode_box m 0 4 0 0 = ⟨1 / 4, 1 / 4, 2 / 5, 2 / 5⟩ := by
    simp [decode_box, float_to_box, hn, hclasses, hcoords, hside, hsqrt, hP8, hP9, hP10, hP11]
    norm_num
  have htruth : truth_box m state 0 = ⟨1 / 4, 1 / 4, 2 / 5, 2 / 5⟩ := by
    simp [truth_box, float_to_box, hclasses, hside, hT2, hT3, hT4, hT5]
    norm_num
  have hcand : cand_iou E m state 0 4 0 0 0 = 1 := by
    unfold cand_iou
    simp only [Nat.cast_zero]
    rw [hbox, htruth, hiou]
  have hbest : ∀ rc : Nat, cell_best_index E m state 0 4 0 0 rc = 0 := by
    intro rc
    rw [cell_best_index_plain E m state 0 4 0 0 rc hforced hrandom, match_loop_eq, hn]
    show (select_step (cand_iou E m state 0 4 0 0 0) (cand_rmse E m state 0 4 0 0 0) _ _).best_index = 0
    rw [hcand]
    simp [select_step, for_loop]
  have hloops : train_loops E m state
      = cell_body E m state 0 3 (cell_body E m state 0 2 (cell_body E m state 0 1
          (cell_body E m state 0 0
            { delta := fun k => if 0 ≤ k ∧ k < m.inputs * m.batch then 0 else m.delta k,
              avg_iou := 0, avg_cat := 0, avg_allcat := 0, avg_obj := 0, avg_anyobj := 0,
              count := 0, rand_calls := 0 }))) := by
    unfold train_loops
    simp only [hbatch, hside]
    rfl
  have frame : ∀ (i : Nat) (a : fwd_acc) (t : Int), (i = 1 ∨ i = 2 ∨ i = 3) → t ≠ 4 + i →
      (cell_body E m state 0 i a).delta t = a.delta t := by
    intro i a t hi ht
    have hflag : float_to_int
        (state.truth ((0 * (m.side * m.side) + i) * (1 + m.coords + m.classes))) = 0 := by
      rw [hside, hcoords, hclasses]
      rcases hi with h | h | h <;> subst h <;> norm_num [hT6, hT12, hT18, float_to_int]
    refine (cell_body_object_free E m state 0 i a hflag).2.2.2 t ?_
    intro j hj
    rw [hside, hclasses, hn]
    rw [hn] at hj
    omega
  have hfinal : ∀ t : Int, t ≠ 5 → t ≠ 6 → t ≠ 7 →
      (train_loops E m state).delta t
        = (cell_body E m state 0 0
            { delta := fun k => if 0 ≤ k ∧ k < m.inputs * m.batch then 0 else m.delta k,
              avg_iou := 0, avg_cat := 0, avg_allcat := 0, avg_obj := 0, avg_anyobj := 0,
              count := 0, rand_calls := 0 }).delta t := by
    intro t h5 h6 h7
    rw [hloops]
    have e3 := frame 3 (cell_body E m state 0 2 (cell_body E m state 0 1
          (cell_body E m state 0 0
            { delta := fun k => if 0 ≤ k ∧ k < m.inputs * m.batch then 0 else m.delta k,
              avg_iou := 0, avg_cat := 0, avg_allcat := 0, avg_obj := 0, avg_anyobj := 0,
              count := 0, rand_calls := 0 }))) t (Or.inr (Or.inr rfl)) (by omega)
    have e2 := frame 2 (cell_body E m state 0 1
          (cell_body E m state 0 0
            { delta := fun k => if 0 ≤ k ∧ k < m.inputs * m.batch then 0 else m.delta k,
              avg_iou := 0, avg_cat := 0, avg_allcat := 0, avg_obj := 0, avg_anyobj := 0,
              count := 0, rand_calls := 0 })) t (Or.inr (Or.inl rfl)) (by omega)
    have e1 := frame 1 (cell_body E m state 0 0
            { delta := fun k => if 0 ≤ k ∧ k < m.inputs * m.batch then 0 else m.delta k,
              avg_iou := 0, avg_cat := 0, avg_allcat := 0, avg_obj := 0, avg_anyobj := 0,
              count := 0, rand_calls := 0 }) t (Or.inl rfl) (by omega)
    simp only [Nat.cast_ofNat, Nat.cast_one] at e1 e2 e3
    rw [e3, e2, e1]
  have hflag0 : float_to_int
      (state.truth ((0 * (m.side * m.side) + ((0 : Nat) : Int)) * (1 + m.coords + m.classes)))
        ≠ 0 := by
    simp [hside, hcoords, hclasses, hT0, float_to_int]
  have hbest2 : ∀ rc : Nat, cell_best_index E m state (0 * m.inputs) (m.side * m.side)
      ((0 : Nat) : Int)
      ((0 * (m.side * m.side) + ((0 : Nat) : Int)) * (1 + m.coords + m.classes)) rc = 0 := by
    intro rc
    have := hbest rc
    simpa [hinputs, hside, hcoords, hclasses] using this
  have hiou2 : E.box_iou (decode_box m (0 * m.inputs) (m.side * m.side) ((0 : Nat) : Int) 0)
      (truth_box m state
        ((0 * (m.side * m.side) + ((0 : Nat) : Int)) * (1 + m.coords + m.classes))) = 1 := by
    have := hcand
    unfold cand_iou at this
    simpa [hinputs, hside, hcoords, hclasses] using this
  obtain ⟨a3, hd3, -, hcb⟩ := cell_body_object E m state 0 0
    { delta := fun k => if 0 ≤ k ∧ k < m.inputs * m.batch then 0 else m.delta k,
      avg_iou := 0, avg_cat := 0, avg_allcat := 0, avg_obj := 0, avg_anyobj := 0,
      count := 0, rand_calls := 0 } hflag0
  have hcell0 : ∀ t : Int,
      (cell_body E m state 0 0
        { delta := fun k => if 0 ≤ k ∧ k < m.inputs * m.batch then 0 else m.delta k,
          avg_iou := 0, avg_cat := 0, avg_allcat := 0, avg_obj := 0, avg_anyobj := 0,
          count := 0, rand_calls := 0 }).delta t
        = if t = 11 then m.coord_scale * (state.truth 5 - m.output t)
          else if t = 10 then m.coord_scale * (state.truth 4 - m.output t)
          else if t = 9 then m.coord_scale * (state.truth 3 - m.output t)
          else if t = 8 then m.coord_scale * (state.truth 2 - m.output t)
          else if t = 4 then
            (if m.rescore ≠ 0 then m.object_scale * (1 - m.output t)
              else m.object_scale * (1 - m.output t))
          else a3.delta t := by
    intro t
    have h0 : cell_body E m state 0 ((0 : Nat)) _ = _ := hcb
    rw [h0, matched_body_delta, hbest2, hiou2]
    simp [hinputs, hside, hn, hclasses, hcoords, hsqrt]
  refine ⟨hcand, hbest, ?_, ?_, ?_, ?_, ?_, ?_⟩
  · rw [hfinal 0 (by decide) (by decide) (by decide), hcell0, hd3]
    simp [hclasses, hn, for_loop, class_body, noobj_body, store, hinputs, hT1, hP0]
    norm_num
  · rw [hfinal 4 (by decide) (by decide) (by decide), hcell0]
    simp [hP4]
    norm_num
  · rw [hfinal 8 (by decide) (by decide) (by decide), hcell0]
    simp [hP8, hT2]
  · rw [hfinal 9 (by decide) (by decide) (by decide), hcell0]
    simp [hP9, hT3]
  · rw [hfinal 10 (by decide) (by decide) (by decide), hcell0]
    simp [hP10, hT4]
  · rw [hfinal 11 (by decide) (by decide) (by decide), hcell0]
    simp [hP11, hT5]

/-- C12: in the end-to-end scenario with rescore off (`side = 2`, `n = 1`, `classes = 1`,
`coords = 4`, `inputs = 24`, `batch = 1`, forced, random and square-root modes off; cell 0
holds an object of class 0 with box (0.5, 0.5, 0.4, 0.4), cells 1 to 3 hold none; the
prediction tensor `l.output` has box (0.5, 0.5, 0.4, 0.4), class score 0.9 and objectness 0.9
for cell 0), with the IoU of that box with itself equal to 1, a training call measures IoU 1
for predictor 0 of cell 0, selects it, and leaves gradient `0` in its four box fields,
`object_scale * 0.1` in its objectness and `class_scale * 0.1` in class 0 of cell 0, whatever
the scales are. -/
theorem e2e_rescore_off (E : collab) (l : detection_layer) (state : network_state)
    (htrain : state.train ≠ 0) (_hrescore : l.rescore = 0)
    (hbatch : l.batch = 1) (hinputs : l.inputs = 24) (hside : l.side = 2) (hn : l.n = 1)
    (hclasses : l.classes = 1) (hcoords : l.coords = 4)
    (hsqrt : l.sqrt = 0) (hforced : l.forced = 0) (hrandom : l.random = 0)
    (hP0 : forward_output E l state 0 = 9 / 10) (hP4 : forward_output E l state 4 = 9 / 10)
    (hP8 : forward_output E l state 8 = 1 / 2) (hP9 : forward_output E l state 9 = 1 / 2)
    (hP10 : forward_output E l state 10 = 2 / 5) (hP11 : forward_output E l state 11 = 2 / 5)
    (hT0 : state.truth 0 = 1) (hT1 : state.truth 1 = 1)
    (hT2 : state.truth 2 = 1 / 2) (hT3 : state.truth 3 = 1 / 2)
    (hT4 : state.truth 4 = 2 / 5) (hT5 : state.truth 5 = 2 / 5)
    (hT6 : state.truth 6 = 0) (hT12 : state.truth 12 = 0) (hT18 : state.truth 18 = 0)
    (hiou : E.box_iou ⟨1 / 4, 1 / 4, 2 / 5, 2 / 5⟩ ⟨1 / 4, 1 / 4, 2 / 5, 2 / 5⟩ = 1) :
    cand_iou E { l with output := forward_output E l state } state 0 4 0 0 0 = 1 ∧
      (∀ rc : Nat,
        cell_best_index E { l with output := forward_output E l state } state 0 4 0 0 rc = 0) ∧
      (forward_detection_layer E l state).delta 8 = 0 ∧
      (forward_detection_layer E l state).delta 9 = 0 ∧
      (forward_detection_layer E l state).delta 10 = 0 ∧
      (forward_detection_layer E l state).delta 11 = 0 ∧
      (forward_detection_layer E l state).delta 4 = l.object_scale * (1 / 10) ∧
      (forward_detection_layer E l state).delta 0 = l.class_scale * (1 / 10) := by
  obtain ⟨h1, h2, h3, h4, h5, h6, h7, h8⟩ :=
    e2e_core E { l with output := forward_output E l state } state hbatch hinputs hside hn
      hclasses hcoords hsqrt hforced hrandom hP0 hP4 hP8 hP9 hP10 hP11 hT0 hT1 hT2 hT3 hT4 hT5
      hT6 hT12 hT18 hiou
  have hdelta : (forward_detection_layer E l state).delta
      = (train_loops E { l with output := forward_output E l state } state).delta := by
    simp only [forward_detection_layer, if_pos htrain]
  rw [hdelta]
  exact ⟨h1, h2, h5, h6, h7, h8, h4, h3⟩

theorem e2e_rescore_off_witness :
    cand_iou probe_collab
        { e2e_layer with output := forward_output probe_collab e2e_layer e2e_state }
        e2e_state 0 4 0 0 0 = 1 ∧
      (∀ rc : Nat,
        cell_best_index probe_collab
          { e2e_layer with output := forward_output probe_collab e2e_layer e2e_state }
          e2e_state 0 4 0 0 rc = 0) ∧
      (forward_detection_layer probe_collab e2e_layer e2e_state).delta 8 = 0 ∧
      (forward_detection_layer probe_collab e2e_layer e2e_state).delta 9 = 0 ∧
      (forward_detection_layer probe_collab e2e_layer e2e_state).delta 10 = 0 ∧
      (forward_detection_layer probe_collab e2e_layer e2e_state).delta 11 = 0 ∧
      (forward_detection_layer probe_collab e2e_layer e2e_state).delta 4
        = e2e_layer.object_scale * (1 / 10) ∧
      (forward_detection_layer probe_collab e2e_layer e2e_state).delta 0
        = e2e_layer.class_scale * (1 / 10) :=
  e2e_rescore_off probe_collab e2e_layer e2e_state (by decide) rfl rfl rfl rfl rfl rfl rfl
    rfl rfl rfl
    (by simp [forward_output, e2e_layer, e2e_state])
    (by simp [forward_output, e2e_layer, e2e_state])
    (by simp [forward_output, e2e_layer, e2e_state])
    (by simp [forward_output, e2e_layer, e2e_state])
    (by simp [forward_output, e2e_layer, e2e_state])
    (by simp [forward_output, e2e_layer, e2e_state])
    (by simp [e2e_state]) (by simp [e2e_state]) (by simp [e2e_state]) (by simp [e2e_state])
    (by simp [e2e_state]) (by simp [e2e_state]) (by simp [e2e_state]) (by simp [e2e_state])
    (by simp [e2e_state]) (by simp [probe_collab])

/-- C13, amended: in the end-to-end scenario with the layer configured to rescore, the IoU of
the matched box being 1, the objectness gradient of predictor 0 of cell 0 is
`object_scale * (1 - 0.9) = object_scale * 0.1`, the same as without rescoring; it is `0`
only when `object_scale` is `0`. -/
theorem e2e_rescore_on (E : collab) (l : detection_layer) (state : network_state)
    (htrain : state.train ≠ 0) (_hrescore : l.rescore ≠ 0)
    (hbatch : l.batch = 1) (hinputs : l.inputs = 24) (hside : l.side = 2) (hn : l.n = 1)
    (hclasses : l.classes = 1) (hcoords : l.coords = 4)
    (hsqrt : l.sqrt = 0) (hforced : l.forced = 0) (hrandom : l.random = 0)
    (hP0 : forward_output E l state 0 = 9 / 10) (hP4 : forward_output E l state 4 = 9 / 10)
    (hP8 : forward_output E l state 8 = 1 / 2) (hP9 : forward_output E l state 9 = 1 / 2)
    (hP10 : forward_output E l state 10 = 2 / 5) (hP11 : forward_output E l state 11 = 2 / 5)
    (hT0 : state.truth 0 = 1) (hT1 : state.truth 1 = 1)
    (hT2 : state.truth 2 = 1 / 2) (hT3 : state.truth 3 = 1 / 2)
    (hT4 : state.truth 4 = 2 / 5) (hT5 : state.truth 5 = 2 / 5)
    (hT6 : state.truth 6 = 0) (hT12 : state.truth 12 = 0) (hT18 : state.truth 18 = 0)
    (hiou : E.box_iou ⟨1 / 4, 1 / 4, 2 / 5, 2 / 5⟩ ⟨1 / 4, 1 / 4, 2 / 5, 2 / 5⟩ = 1) :
    (forward_detection_layer E l state).delta 4 = l.object_scale * (1 / 10) ∧
      ((forward_detection_layer E l state).delta 4 = 0 ↔ l.object_scale = 0) := by
  obtain ⟨-, -, -, h4, -⟩ :=
    e2e_core E { l with output := forward_output E l state } state hbatch hinputs hside hn
      hclasses hcoords hsqrt hforced hrandom hP0 hP4 hP8 hP9 hP10 hP11 hT0 hT1 hT2 hT3 hT4 hT5
      hT6 hT12 hT18 hiou
  have hdelta : (forward_detection_layer E l state).delta
      = (train_loops E { l with output := forward_output E l state } state).delta := by
    simp only [forward_detection_layer, if_pos htrain]
  rw [hdelta]
  refine ⟨h4, ?_⟩
  rw [h4]
  constructor
  · intro h
    have : l.object_scale * (1 / 10) * 10 = 0 := by rw [h]; norm_num
    linarith
  · intro h
    rw [h]; norm_num

theorem e2e_rescore_on_witness :
    (forward_detection_layer probe_collab { e2e_layer with rescore := 1 } e2e_state).delta 4
        = e2e_layer.object_scale * (1 / 10) ∧
      ((forward_detection_layer probe_collab { e2e_layer with rescore := 1 } e2e_state).delta 4
          = 0 ↔ e2e_layer.object_scale = 0) :=
  e2e_rescore_on probe_collab { e2e_layer with rescore := 1 } e2e_state (by decide)
    (by decide) rfl rfl rfl rfl rfl rfl rfl rfl rfl
    (by simp [forward_output, e2e_layer, e2e_state])
    (by simp [forward_output, e2e_layer, e2e_state])
    (by simp [forward_output, e2e_layer, e2e_state])
    (by simp [forward_output, e2e_layer, e2e_state])
    (by simp [forward_output, e2e_layer, e2e_state])
    (by simp [forward_output, e2e_layer, e2e_state])
    (by simp [e2e_state]) (by simp [e2e_state]) (by simp [e2e_state]) (by simp [e2e_state])
    (by simp [e2e_state]) (by simp [e2e_state]) (by simp [e2e_state]) (by simp [e2e_state])
    (by simp [e2e_state]) (by simp [probe_collab])

/-- C13, as stated, fails: in the end-to-end scenario with rescore on and `object_scale = 1`
the objectness gradient of predictor 0 of cell 0 is `1/10`, not `0`. -/
theorem e2e_rescore_gradient_not_zero :
    ¬ ((forward_detection_layer probe_collab { e2e_layer with rescore := 1 } e2e_state).delta 4
        = 0) := by
  have hcore := e2e_core probe_collab
    { e2e_layer with
      rescore := 1
      output := forward_output probe_collab { e2e_layer with rescore := 1 } e2e_state }
    e2e_state rfl rfl rfl rfl rfl rfl rfl rfl rfl
    (by simp [forward_output, e2e_layer, e2e_state])
    (by simp [forward_output, e2e_layer, e2e_state])
    (by simp [forward_output, e2e_layer, e2e_state])
    (by simp [forward_output, e2e_layer, e2e_state])
    (by simp [forward_output, e2e_layer, e2e_state])
    (by simp [forward_output, e2e_layer, e2e_state])
    (by simp [e2e_state]) (by simp [e2e_state]) (by simp [e2e_state]) (by simp [e2e_state])
    (by simp [e2e_state]) (by simp [e2e_state]) (by simp [e2e_state]) (by simp [e2e_state])
    (by simp [e2e_state]) (by simp [probe_collab])
  have h4 := hcore.2.2.2.1
  have hdelta : (forward_detection_layer probe_collab { e2e_layer with rescore := 1 }
      e2e_state).delta
      = (train_loops probe_collab
          { e2e_layer with
            rescore := 1
            output := forward_output probe_collab { e2e_layer with rescore := 1 } e2e_state }
          e2e_state).delta := by
    simp only [forward_detection_layer]
    rfl
  rw [hdelta, h4]
  norm_num [e2e_layer]

/-! ## The gradient buffer when a neighbouring cell is unmatched -/

set_option maxHeartbeats 1000000 in
/-- C14 at a scenario: cell 0 is object-bearing with responsible predictor `0` (IoU 1,
predicted objectness 0.9) and the layer rescores, so the claim gives gradient
`object_scale * (1 - 0.9) = 1/10` at offset 4; after the training call the entry is `-9/10`,
written at line 199 by cell 1, whose `best_index` is `-1`. -/
theorem objectness_entry_overwritten_at_scenario :
    float_to_int (clash_state.truth 0) ≠ 0 ∧
      cell_best_index probe_collab clash_forwarded clash_state 0 4 0 0 0 = 0 ∧
      clash_layer.rescore ≠ 0 ∧
      train_obj_offset clash_layer 0 0 0 = 4 ∧
      clash_layer.object_scale
          * (cand_iou probe_collab clash_forwarded clash_state 0 4 0 0 0
            - (forward_detection_layer probe_collab clash_layer clash_state).output 4)
        = 1 / 10 ∧
      (forward_detection_layer probe_collab clash_layer clash_state).delta 4 = -9 / 10 := by
  refine ⟨?_, ?_, by decide, by decide, ?_, ?_⟩
  · simp [float_to_int, clash_state]
  · simp [cell_best_index, match_loop, for_loop, match_body, decode_box, select_step,
      truth_box, float_to_box, forced_index, random_index, random_active, clash_forwarded,
      clash_layer, e2e_layer, clash_state, probe_collab, forward_output]
  · simp [cand_iou, decode_box, truth_box, float_to_box, clash_forwarded, clash_layer,
      e2e_layer, clash_state, probe_collab, forward_output, forward_detection_layer]
    norm_num
  · simp [forward_detection_layer, train_loops, cell_body, matched_body, noobj_body,
      class_body, cell_best_index, match_loop, for_loop, match_body, decode_box, select_step,
      truth_box, float_to_box, forced_index, random_index, random_active, clash_layer,
      e2e_layer, clash_state, probe_collab, forward_output, store, float_to_int]
    norm_num

set_option maxHeartbeats 1000000 in
/-- C15 at a scenario: cell 0 is object-bearing with responsible predictor `0`, whose box
starts at offset 8 and equals the ground truth, so the claim gives gradient `0` in its box
fields; after the training call the first field holds `-2`, written at line 203 by cell 1,
whose `best_index` is `-1`. -/
theorem box_entries_overwritten_at_scenario :
    float_to_int (clash_state.truth 0) ≠ 0 ∧
      cell_best_index probe_collab clash_forwarded clash_state 0 4 0 0 0 = 0 ∧
      train_box_offset clash_layer 0 0 0 0 = 8 ∧
      clash_layer.coord_scale
          * (clash_state.truth 2
            - (forward_detection_layer probe_collab clash_layer clash_state).output 8) = 0 ∧
      (forward_detection_layer probe_collab clash_layer clash_state).delta 8 = -2 := by
  refine ⟨?_, ?_, by decide, ?_, ?_⟩
  · simp [float_to_int, clash_state]
  · simp [cell_best_index, match_loop, for_loop, match_body, decode_box, select_step,
      truth_box, float_to_box, forced_index, random_index, random_active, clash_forwarded,
      clash_layer, e2e_layer, clash_state, probe_collab, forward_output]
  · simp [clash_layer, e2e_layer, clash_state, forward_output, forward_detection_layer]
  · simp [forward_detection_layer, train_loops, cell_body, matched_body, noobj_body,
      class_body, cell_best_index, match_loop, for_loop, match_body, decode_box, select_step,
      truth_box, float_to_box, forced_index, random_index, random_active, clash_layer,
      e2e_layer, clash_state, probe_collab, forward_output, store, float_to_int]
    norm_num

set_option maxHeartbeats 1000000 in
/-- C16 at a scenario: the only cell is object-bearing and class 0 of the cell sits at
offset 0, so the claim gives gradient `class_scale * (1 - 0) = 1` there; after the training
call the entry is `5/2`: the cell ends its matching loop with `best_index = -1`, its
`box_index` is `0`, and line 203 overwrites the classification gradient. -/
theorem class_entry_overwritten_at_scenario :
    float_to_int (triple_state.truth 0) ≠ 0 ∧
      train_class_offset triple_layer 0 0 0 = 0 ∧
      triple_layer.class_scale
          * (triple_state.truth 1
            - (forward_detection_layer probe_collab triple_layer triple_state).output 0) = 1 ∧
      (forward_detection_layer probe_collab triple_layer triple_state).delta 0 = 5 / 2 := by
  refine ⟨?_, by decide, ?_, ?_⟩
  · simp [float_to_int, triple_state]
  · simp [triple_layer, triple_state, forward_output, forward_detection_layer]
  · simp [forward_detection_layer, train_loops, cell_body, matched_body, noobj_body,
      class_body, cell_best_index, match_loop, for_loop, match_body, decode_box, select_step,
      truth_box, float_to_box, forced_index, random_index, random_active, triple_layer,
      triple_state, probe_collab, forward_output, store, float_to_int]
    norm_num

set_option maxHeartbeats 4000000 in
/-- C17 at a scenario: cell 0 is object-bearing with responsible predictor `0`, so the claim
gives gradient `0` in the box fields of its predictor 1, which start at offset 16; after the
training call the first of them holds `5/2`, written at line 203 by cell 1, whose
`best_index` is `-1`. -/
theorem unmatched_box_entries_overwritten_at_scenario :
    float_to_int (twin_state.truth 0) ≠ 0 ∧
      cell_best_index probe_collab twin_forwarded twin_state 0 4 0 0 0 = 0 ∧
      train_box_offset twin_layer 0 0 1 0 = 16 ∧
      (forward_detection_layer probe_collab twin_layer twin_state).delta 16 = 5 / 2 := by
  refine ⟨?_, ?_, by decide, ?_⟩
  · simp [float_to_int, twin_state]
  · simp [cell_best_index, match_loop, for_loop, match_body, decode_box, select_step,
      truth_box, float_to_box, forced_index, random_index, random_active, twin_forwarded,
      twin_layer, twin_state, probe_collab, forward_output]
    norm_num
  · simp [forward_detection_layer, train_loops, cell_body, matched_body, noobj_body,
      class_body, cell_best_index, match_loop, for_loop, match_body, decode_box, select_step,
      truth_box, float_to_box, forced_index, random_index, random_active, twin_layer,
      twin_state, probe_collab, forward_output, store, float_to_int]
    norm_num

/-! ## Loops that leave a part of the state alone -/

theorem for_loop_frame {σ α : Type} (π : σ → α) (N : Nat) (body : Nat → σ → σ) (s : σ)
    (h : ∀ k, k < N → ∀ u, π (body k u) = π u) : π (for_loop N body s) = π s := by
  induction N with
  | zero => rfl
  | succ m ih =>
    show π (body m (for_loop m body s)) = π s
    rw [h m (Nat.lt_succ_self m)]
    exact ih (fun k hk u => h k (Nat.lt_succ_of_lt hk) u)

theorem for_loop_at {σ α : Type} (π : σ → α) (N : Nat) (body : Nat → σ → σ) (s : σ) (i : Nat)
    (hi : i < N) (h : ∀ k, k < N → k ≠ i → ∀ u, π (body k u) = π u) :
    π (for_loop N body s) = π (body i (for_loop i body s)) := by
  induction N with
  | zero => exact absurd hi (Nat.not_lt_zero i)
  | succ m ih =>
    show π (body m (for_loop m body s)) = _
    rcases Nat.lt_succ_iff_lt_or_eq.1 hi with hlt | heq
    · rw [h m (Nat.lt_succ_self m) (by omega)]
      exact ih hlt (fun k hk hne u => h k (Nat.lt_succ_of_lt hk) hne u)
    · subst heq
      rfl

theorem train_loops_eq (E : collab) (l : detection_layer) (state : network_state) :
    train_loops E l state
      = for_loop l.batch.toNat
          (fun b a => for_loop (l.side * l.side).toNat (cell_body E l state b) a)
          (train_init l) := rfl

/-! ## Ownership of offsets -/

theorem field_offset_inj (l : detection_layer) (hcoords : l.coords = 4)
    (hid : l.inputs = l.side * l.side * ((1 + l.coords) * l.n + l.classes))
    (hn : 0 ≤ l.n) (hclasses : 0 ≤ l.classes) (b b2 : Int) (x y : tensor_field)
    (hx : field_valid l x) (hy : field_valid l y)
    (h : field_offset l b x = field_offset l b2 y) : b = b2 ∧ x = y := by
  have hL : 0 ≤ l.side * l.side := mul_self_nonneg l.side
  have hP : 0 ≤ l.side * l.side * l.classes := mul_nonneg hL hclasses
  have hQ : 0 ≤ l.side * l.side * l.n := mul_nonneg hL hn
  have hin : l.inputs = l.side * l.side * l.classes + l.side * l.side * l.n
      + l.side * l.side * l.n * 4 := by
    rw [hid, hcoords]; ring
  have hloc : ∀ x : tensor_field, field_valid l x →
      0 ≤ field_local l x ∧ field_local l x < l.inputs := by
    intro x hx
    have r := field_local_range l x hx
    cases x with
    | cls i j => simp only [] at r; omega
    | obj i k => simp only [] at r; omega
    | coord i k f => simp only [] at r; omega
  rw [field_offset_eq l b x hcoords, field_offset_eq l b2 y hcoords] at h
  obtain ⟨hx0, hx1⟩ := hloc x hx
  obtain ⟨hy0, hy1⟩ := hloc y hy
  obtain ⟨e1, e2⟩ := radix_inj b b2 (field_local l x) (field_local l y) l.inputs
    hx0 hx1 hy0 hy1 h
  exact ⟨e1, field_local_inj l x y hx hy e2⟩

theorem field_offset_range (l : detection_layer) (hcoords : l.coords = 4)
    (hid : l.inputs = l.side * l.side * ((1 + l.coords) * l.n + l.classes))
    (hn : 0 ≤ l.n) (hclasses : 0 ≤ l.classes) (b : Int) (x : tensor_field)
    (hx : field_valid l x) :
    b * l.inputs ≤ field_offset l b x ∧ field_offset l b x < (b + 1) * l.inputs := by
  have hL : 0 ≤ l.side * l.side := mul_self_nonneg l.side
  have hP : 0 ≤ l.side * l.side * l.classes := mul_nonneg hL hclasses
  have hQ : 0 ≤ l.side * l.side * l.n := mul_nonneg hL hn
  have hin : l.inputs = l.side * l.side * l.classes + l.side * l.side * l.n
      + l.side * l.side * l.n * 4 := by
    rw [hid, hcoords]; ring
  have r := field_local_range l x hx
  rw [field_offset_eq l b x hcoords]
  have hexp : (b + 1) * l.inputs = b * l.inputs + l.inputs := by ring
  cases x with
  | cls i j => simp only [] at r; omega
  | obj i k => simp only [] at r; omega
  | coord i k f => simp only [] at r; omega

/-- An offset belongs to at most one cell of one batch element. -/
theorem owns_unique (l : detection_layer) (hcoords : l.coords = 4)
    (hid : l.inputs = l.side * l.side * ((1 + l.coords) * l.n + l.classes))
    (hn : 0 ≤ l.n) (hclasses : 0 ≤ l.classes) (b b2 : Int) (i i2 : Nat) (t : Int)
    (h1 : owns l b i t) (h2 : owns l b2 i2 t) : b = b2 ∧ i = i2 := by
  obtain ⟨x, hx, hxc, hxt⟩ := h1
  obtain ⟨y, hy, hyc, hyt⟩ := h2
  obtain ⟨e1, e2⟩ := field_offset_inj l hcoords hid hn hclasses b b2 x y hx hy
    (hxt.trans hyt.symm)
  refine ⟨e1, ?_⟩
  rw [← hxc, ← hyc, e2]

/-! ## What one cell writes -/

/-- The offsets that lines 177 and 194 compute from an index `k` within `[0, n)` are the box
fields and the objectness of predictor `k` of the cell. -/
theorem matched_offsets (l : detection_layer) (b : Int) (i k : Nat) :
    b * l.inputs + l.side * l.side * (l.classes + l.n) + (i * l.n + k) * l.coords + 3
        = field_offset l b (.coord i k 3) ∧
      b * l.inputs + l.side * l.side * (l.classes + l.n) + (i * l.n + k) * l.coords + 2
        = field_offset l b (.coord i k 2) ∧
      b * l.inputs + l.side * l.side * (l.classes + l.n) + (i * l.n + k) * l.coords + 1
        = field_offset l b (.coord i k 1) ∧
      b * l.inputs + l.side * l.side * (l.classes + l.n) + (i * l.n + k) * l.coords + 0
        = field_offset l b (.coord i k 0) ∧
      b * l.inputs + l.side * l.side * l.classes + i * l.n + k
        = field_offset l b (.obj i k) := by
  refine ⟨?_, ?_, ?_, ?_, ?_⟩ <;> simp [field_offset, train_box_offset, train_obj_offset]

/-- The iteration of an object-bearing cell whose index of line 176 is `k`, entry by entry,
in terms of the fields of the cell. -/
theorem cell_body_object_delta (E : collab) (l : detection_layer) (state : network_state)
    (b : Int) (i : Nat) (a : fwd_acc) (k : Nat)
    (hflag : is_object l state b i)
    (hk : cell_best_index E l state (b * l.inputs) (l.side * l.side) i (truth_offset l b i)
      a.rand_calls = k)
    (t : Int) :
    (cell_body E l state b i a).delta t
      = (if l.sqrt ≠ 0 ∧ t = field_offset l b (.coord i k 3)
          then l.coord_scale * (E.sqrtf (state.truth (truth_offset l b i + 1 + l.classes + 3))
            - l.output t)
        else if l.sqrt ≠ 0 ∧ t = field_offset l b (.coord i k 2)
          then l.coord_scale * (E.sqrtf (state.truth (truth_offset l b i + 1 + l.classes + 2))
            - l.output t)
        else if t = field_offset l b (.coord i k 3)
          then l.coord_scale * (state.truth (truth_offset l b i + 1 + l.classes + 3)
            - l.output t)
        else if t = field_offset l b (.coord i k 2)
          then l.coord_scale * (state.truth (truth_offset l b i + 1 + l.classes + 2)
            - l.output t)
        else if t = field_offset l b (.coord i k 1)
          then l.coord_scale * (state.truth (truth_offset l b i + 1 + l.classes + 1)
            - l.output t)
        else if t = field_offset l b (.coord i k 0)
          then l.coord_scale * (state.truth (truth_offset l b i + 1 + l.classes + 0)
            - l.output t)
        else if t = field_offset l b (.obj i k) then
          (if l.rescore ≠ 0 then
            l.object_scale
              * (E.box_iou (decode_box l (b * l.inputs) (l.side * l.side) i k)
                  (truth_box l state (truth_offset l b i)) - l.output t)
          else l.object_scale * (1 - l.output t))
        else (for_loop l.classes.toNat
            (class_body l state (b * l.inputs + i * l.classes) (truth_offset l b i))
            (for_loop l.n.toNat (noobj_body l (b * l.inputs) (l.side * l.side) i) a)).delta t) := by
  obtain ⟨a3, hd3, -, hcb⟩ := cell_body_object E l state b i a hflag
  obtain ⟨e3, e2, e1, e0, ep⟩ := matched_offsets l b i k
  unfold truth_offset at hk ⊢
  rw [hcb, matched_body_delta, hk, e3, e2, e1, e0, ep, hd3]

/-- A cell whose index of line 176 is within `[0, n)` (or which holds no object) writes only
to offsets of its own fields. -/
theorem cell_body_frame (E : collab) (l : detection_layer) (state : network_state)
    (b : Int) (i : Nat) (a : fwd_acc) (hi : (i : Int) < l.side * l.side)
    (hvalid : is_object l state b i →
      0 ≤ cell_best_index E l state (b * l.inputs) (l.side * l.side) i (truth_offset l b i)
          a.rand_calls ∧
      cell_best_index E l state (b * l.inputs) (l.side * l.side) i (truth_offset l b i)
          a.rand_calls < l.n)
    (t : Int) (ht : ¬ owns l b i t) :
    (cell_body E l state b i a).delta t = a.delta t := by
  have hobjslot : ∀ j : Nat, (j : Int) < l.n →
      t ≠ b * l.inputs + l.side * l.side * l.classes + i * l.n + j := by
    intro j hj heq
    exact ht ⟨.obj i j, ⟨hi, hj⟩, rfl, heq.symm⟩
  by_cases hflag : float_to_int (state.truth (truth_offset l b i)) = 0
  · exact (cell_body_object_free E l state b i a hflag).2.2.2 t hobjslot
  · obtain ⟨hm0, hm1⟩ := hvalid hflag
    obtain ⟨k, hk⟩ := Int.eq_ofNat_of_zero_le hm0
    have hkn : (k : Int) < l.n := by rw [← hk]; exact hm1
    have hcoord : ∀ f : Nat, f < 4 → t ≠ field_offset l b (.coord i k f) := by
      intro f hf heq
      exact ht ⟨.coord i k f, ⟨hi, hkn, hf⟩, rfl, heq.symm⟩
    have hobj : t ≠ field_offset l b (.obj i k) := by
      intro heq
      exact ht ⟨.obj i k, ⟨hi, hkn⟩, rfl, heq.symm⟩
    rw [cell_body_object_delta E l state b i a k hflag hk t]
    rw [if_neg (fun h => hcoord 3 (by decide) h.2), if_neg (fun h => hcoord 2 (by decide) h.2),
      if_neg (hcoord 3 (by decide)), if_neg (hcoord 2 (by decide)),
      if_neg (hcoord 1 (by decide)), if_neg (hcoord 0 (by decide)), if_neg hobj]
    rw [(class_loop_delta l state _ _ _ _).2 t ?_, noobj_loop_delta, if_neg]
    · rintro ⟨j, hj, hjt⟩
      exact hobjslot j (by omega) hjt
    · intro j hj heq
      exact ht ⟨.cls i j, ⟨hi, by omega⟩, rfl, heq.symm⟩

theorem field_offset_eq_iff (l : detection_layer) (hcoords : l.coords = 4)
    (hid : l.inputs = l.side * l.side * ((1 + l.coords) * l.n + l.classes))
    (hn : 0 ≤ l.n) (hclasses : 0 ≤ l.classes) (b : Int) (x y : tensor_field)
    (hx : field_valid l x) (hy : field_valid l y) :
    field_offset l b x = field_offset l b y ↔ x = y := by
  constructor
  · intro h
    exact (field_offset_inj l hcoords hid hn hclasses b b x y hx hy h).2
  · intro h
    rw [h]

/-- The objectness entries of a cell after its iteration. -/
theorem cell_body_at_obj (E : collab) (l : detection_layer) (state : network_state)
    (hcoords : l.coords = 4)
    (hid : l.inputs = l.side * l.side * ((1 + l.coords) * l.n + l.classes))
    (hn : 0 ≤ l.n) (hclasses : 0 ≤ l.classes)
    (b : Int) (i : Nat) (a : fwd_acc) (hi : (i : Int) < l.side * l.side)
    (hvalid : is_object l state b i →
      0 ≤ cell_best_index E l state (b * l.inputs) (l.side * l.side) i (truth_offset l b i)
          a.rand_calls ∧
      cell_best_index E l state (b * l.inputs) (l.side * l.side) i (truth_offset l b i)
          a.rand_calls < l.n)
    (k : Nat) (hk : (k : Int) < l.n) :
    (cell_body E l state b i a).delta (train_obj_offset l b i k)
      = if is_object l state b i ∧
            cell_best_index E l state (b * l.inputs) (l.side * l.side) i (truth_offset l b i)
              a.rand_calls = k
        then
          (if l.rescore ≠ 0 then
            l.object_scale
              * (E.box_iou (decode_box l (b * l.inputs) (l.side * l.side) i k)
                  (truth_box l state (truth_offset l b i))
                - l.output (train_obj_offset l b i k))
          else l.object_scale * (1 - l.output (train_obj_offset l b i k)))
        else l.noobject_scale * (0 - l.output (train_obj_offset l b i k)) := by
  by_cases hflag : float_to_int (state.truth (truth_offset l b i)) = 0
  · have hno : ¬ is_object l state b i := fun h => h hflag
    rw [if_neg (fun h => hno h.1)]
    exact (cell_body_object_free E l state b i a hflag).2.2.1 k hk
  · obtain ⟨hm0, hm1⟩ := hvalid hflag
    obtain ⟨m, hm⟩ := Int.eq_ofNat_of_zero_le hm0
    have hmn : (m : Int) < l.n := by rw [← hm]; exact hm1
    have hx : field_valid l (.obj i k) := ⟨hi, hk⟩
    have ht : train_obj_offset l b i k = field_offset l b (.obj i k) := rfl
    have h3 := field_offset_eq_iff l hcoords hid hn hclasses b _ (.coord i m 3) hx
      ⟨hi, hmn, by decide⟩
    have h2 := field_offset_eq_iff l hcoords hid hn hclasses b _ (.coord i m 2) hx
      ⟨hi, hmn, by decide⟩
    have h1 := field_offset_eq_iff l hcoords hid hn hclasses b _ (.coord i m 1) hx
      ⟨hi, hmn, by decide⟩
    have h0 := field_offset_eq_iff l hcoords hid hn hclasses b _ (.coord i m 0) hx
      ⟨hi, hmn, by decide⟩
    have hp := field_offset_eq_iff l hcoords hid hn hclasses b _ (.obj i m) hx ⟨hi, hmn⟩
    rw [cell_body_object_delta E l state b i a m hflag hm, hm, ht]
    simp only [h3, h2, h1, h0, hp, reduceCtorEq, and_false, if_false, tensor_field.obj.injEq,
      true_and]
    by_cases hkm : k = m
    · subst hkm
      simp [is_object, hflag]
    · have hkm2 : ¬ ((m : Int) = (k : Int)) := by omega
      rw [if_neg hkm, if_neg (fun h => hkm2 h.2), ← ht]
      rw [(class_loop_delta l state _ _ _ _).2 _ ?_]
      · rw [noobj_loop_delta, if_pos ⟨k, by omega, rfl⟩]
      · intro j hj heq
        have hj2 : field_valid l (.cls i j) := ⟨hi, by omega⟩
        have := (field_offset_eq_iff l hcoords hid hn hclasses b _ (.cls i j) hx hj2).1 heq
        exact absurd this (by simp)

/-- The classification entries of a cell after its iteration. -/
theorem cell_body_at_cls (E : collab) (l : detection_layer) (state : network_state)
    (hcoords : l.coords = 4)
    (hid : l.inputs = l.side * l.side * ((1 + l.coords) * l.n + l.classes))
    (hn : 0 ≤ l.n) (hclasses : 0 ≤ l.classes)
    (b : Int) (i : Nat) (a : fwd_acc) (hi : (i : Int) < l.side * l.side)
    (hvalid : is_object l state b i →
      0 ≤ cell_best_index E l state (b * l.inputs) (l.side * l.side) i (truth_offset l b i)
          a.rand_calls ∧
      cell_best_index E l state (b * l.inputs) (l.side * l.side) i (truth_offset l b i)
          a.rand_calls < l.n)
    (j : Nat) (hj : (j : Int) < l.classes) :
    (cell_body E l state b i a).delta (train_class_offset l b i j)
      = if is_object l state b i then
          l.class_scale
            * (state.truth (truth_offset l b i + 1 + j) - l.output (train_class_offset l b i j))
        else a.delta (train_class_offset l b i j) := by
  have hx : field_valid l (.cls i j) := ⟨hi, hj⟩
  have ht : train_class_offset l b i j = field_offset l b (.cls i j) := rfl
  by_cases hflag : float_to_int (state.truth (truth_offset l b i)) = 0
  · have hno : ¬ is_object l state b i := fun h => h hflag
    rw [if_neg hno]
    refine (cell_body_object_free E l state b i a hflag).2.2.2 _ ?_
    intro k hk heq
    have hk2 : field_valid l (.obj i k) := ⟨hi, hk⟩
    have := (field_offset_eq_iff l hcoords hid hn hclasses b _ (.obj i k) hx hk2).1
      (ht.symm.trans heq)
    exact absurd this (by simp)
  · obtain ⟨hm0, hm1⟩ := hvalid hflag
    obtain ⟨m, hm⟩ := Int.eq_ofNat_of_zero_le hm0
    have hmn : (m : Int) < l.n := by rw [← hm]; exact hm1
    have h3 := field_offset_eq_iff l hcoords hid hn hclasses b _ (.coord i m 3) hx
      ⟨hi, hmn, by decide⟩
    have h2 := field_offset_eq_iff l hcoords hid hn hclasses b _ (.coord i m 2) hx
      ⟨hi, hmn, by decide⟩
    have h1 := field_offset_eq_iff l hcoords hid hn hclasses b _ (.coord i m 1) hx
      ⟨hi, hmn, by decide⟩
    have h0 := field_offset_eq_iff l hcoords hid hn hclasses b _ (.coord i m 0) hx
      ⟨hi, hmn, by decide⟩
    have hp := field_offset_eq_iff l hcoords hid hn hclasses b _ (.obj i m) hx ⟨hi, hmn⟩
    have hyes : is_object l state b i := hflag
    rw [if_pos hyes, cell_body_object_delta E l state b i a m hflag hm, ht]
    simp only [h3, h2, h1, h0, hp, reduceCtorEq, and_false, if_false]
    rw [← ht]
    exact (class_loop_delta l state _ _ _ _).1 j (by omega)

/-- The box entries of a cell after its iteration. -/
theorem cell_body_at_coord (E : collab) (l : detection_layer) (state : network_state)
    (hcoords : l.coords = 4)
    (hid : l.inputs = l.side * l.side * ((1 + l.coords) * l.n + l.classes))
    (hn : 0 ≤ l.n) (hclasses : 0 ≤ l.classes)
    (b : Int) (i : Nat) (a : fwd_acc) (hi : (i : Int) < l.side * l.side)
    (hvalid : is_object l state b i →
      0 ≤ cell_best_index E l state (b * l.inputs) (l.side * l.side) i (truth_offset l b i)
          a.rand_calls ∧
      cell_best_index E l state (b * l.inputs) (l.side * l.side) i (truth_offset l b i)
          a.rand_calls < l.n)
    (k f : Nat) (hk : (k : Int) < l.n) (hf : f < 4) :
    (cell_body E l state b i a).delta (train_box_offset l b i k f)
      = if is_object l state b i ∧
            cell_best_index E l state (b * l.inputs) (l.side * l.side) i (truth_offset l b i)
              a.rand_calls = k
        then l.coord_scale
          * (coord_target E l state b i f - l.output (train_box_offset l b i k f))
        else a.delta (train_box_offset l b i k f) := by
  have hx : field_valid l (.coord i k f) := ⟨hi, hk, hf⟩
  have ht : train_box_offset l b i k f = field_offset l b (.coord i k f) := rfl
  have hnotobj : ∀ k2 : Nat, (k2 : Int) < l.n →
      train_box_offset l b i k f ≠ b * l.inputs + l.side * l.side * l.classes + i * l.n + k2 := by
    intro k2 hk2 heq
    have hk3 : field_valid l (.obj i k2) := ⟨hi, hk2⟩
    have := (field_offset_eq_iff l hcoords hid hn hclasses b _ (.obj i k2) hx hk3).1
      (ht.symm.trans heq)
    exact absurd this (by simp)
  by_cases hflag : float_to_int (state.truth (truth_offset l b i)) = 0
  · have hno : ¬ is_object l state b i := fun h => h hflag
    rw [if_neg (fun h => hno h.1)]
    exact (cell_body_object_free E l state b i a hflag).2.2.2 _ hnotobj
  · obtain ⟨hm0, hm1⟩ := hvalid hflag
    obtain ⟨m, hm⟩ := Int.eq_ofNat_of_zero_le hm0
    have hmn : (m : Int) < l.n := by rw [← hm]; exact hm1
    have h3 := field_offset_eq_iff l hcoords hid hn hclasses b _ (.coord i m 3) hx
      ⟨hi, hmn, by decide⟩
    have h2 := field_offset_eq_iff l hcoords hid hn hclasses b _ (.coord i m 2) hx
      ⟨hi, hmn, by decide⟩
    have h1 := field_offset_eq_iff l hcoords hid hn hclasses b _ (.coord i m 1) hx
      ⟨hi, hmn, by decide⟩
    have h0 := field_offset_eq_iff l hcoords hid hn hclasses b _ (.coord i m 0) hx
      ⟨hi, hmn, by decide⟩
    have hp := field_offset_eq_iff l hcoords hid hn hclasses b _ (.obj i m) hx ⟨hi, hmn⟩
    have hyes : is_object l state b i := hflag
    rw [cell_body_object_delta E l state b i a m hflag hm, hm, ht]
    simp only [h3, h2, h1, h0, hp, reduceCtorEq, if_false, tensor_field.coord.injEq, true_and]
    by_cases hkm : k = m
    · subst hkm
      have hf4 : f = 0 ∨ f = 1 ∨ f = 2 ∨ f = 3 := by omega
      rcases hf4 with h | h | h | h <;> subst h <;>
        by_cases hs : l.sqrt = 0 <;> simp [coord_target, hyes, hs]
    · have hkm2 : ¬ ((m : Int) = (k : Int)) := by omega
      simp only [hkm, false_and, and_false, if_false, hkm2]
      rw [← ht]
      rw [(class_loop_delta l state _ _ _ _).2 _ ?_, noobj_loop_delta, if_neg]
      · rintro ⟨k2, hk2, heq⟩
        exact hnotobj k2 (by omega) heq
      · intro j hj heq
        have hj2 : field_valid l (.cls i j) := ⟨hi, by omega⟩
        have := (field_offset_eq_iff l hcoords hid hn hclasses b _ (.cls i j) hx hj2).1
          (ht.symm.trans heq)
        exact absurd this (by simp)

/-! ## The whole walk -/

/-- When every object-bearing cell gets an index within `[0, n)`, an offset that holds a
field of cell `i` of batch element `b` is written by that cell's iteration only: the value
the walk leaves there is the value that iteration leaves, and before it the entry is the `0`
of line 80. -/
theorem train_loops_delta_at (E : collab) (l : detection_layer) (state : network_state)
    (hcoords : l.coords = 4)
    (hid : l.inputs = l.side * l.side * ((1 + l.coords) * l.n + l.classes))
    (hn : 0 ≤ l.n) (hclasses : 0 ≤ l.classes) (hvalid : indices_valid E l state)
    (b i : Nat) (hb : (b : Int) < l.batch) (hi : (i : Int) < l.side * l.side)
    (t : Int) (hown : owns l b i t) :
    (train_loops E l state).delta t
        = (cell_body E l state b i (acc_before E l state b i)).delta t ∧
      (acc_before E l state b i).delta t = 0 := by
  have hframe : ∀ (b2 i2 : Nat), b2 < l.batch.toNat → i2 < (l.side * l.side).toNat →
      (b2 ≠ b ∨ i2 ≠ i) → ∀ u : fwd_acc,
      (cell_body E l state b2 i2 u).delta t = u.delta t := by
    intro b2 i2 hb2 hi2 hne u
    have hb2' : (b2 : Int) < l.batch := by omega
    have hi2' : (i2 : Int) < l.side * l.side := by omega
    refine cell_body_frame E l state b2 i2 u hi2'
      (fun hobj => hvalid b2 i2 hb2' hi2' hobj u.rand_calls) t ?_
    intro hown2
    obtain ⟨e1, e2⟩ := owns_unique l hcoords hid hn hclasses b2 b i2 i t hown2 hown
    rcases hne with h | h
    · exact h (by exact_mod_cast e1)
    · exact h e2
  have hbN : b < l.batch.toNat := by omega
  have hiN : i < (l.side * l.side).toNat := by omega
  have houter : ∀ (b2 : Nat), b2 < l.batch.toNat → b2 ≠ b → ∀ u : fwd_acc,
      (for_loop (l.side * l.side).toNat (cell_body E l state b2) u).delta t = u.delta t := by
    intro b2 hb2 hne u
    exact for_loop_frame (fun a : fwd_acc => a.delta t) _ _ u
      (fun i2 hi2 v => hframe b2 i2 hb2 hi2 (Or.inl hne) v)
  constructor
  · rw [train_loops_eq]
    have h1 := for_loop_at (fun a : fwd_acc => a.delta t) l.batch.toNat
      (fun b a => for_loop (l.side * l.side).toNat (cell_body E l state b) a)
      (train_init l) b hbN (fun b2 hb2 hne u => houter b2 hb2 hne u)
    have h2 := for_loop_at (fun a : fwd_acc => a.delta t) (l.side * l.side).toNat
      (cell_body E l state b)
      (for_loop b (fun b a => for_loop (l.side * l.side).toNat (cell_body E l state b) a)
        (train_init l)) i hiN
      (fun i2 hi2 hne u => hframe b i2 hbN hi2 (Or.inr hne) u)
    exact h1.trans h2
  · have h1 := for_loop_frame (fun a : fwd_acc => a.delta t) i (cell_body E l state b)
      (for_loop b (fun b a => for_loop (l.side * l.side).toNat (cell_body E l state b) a)
        (train_init l))
      (fun i2 hi2 u => hframe b i2 hbN (by omega) (Or.inr (by omega)) u)
    have h2 := for_loop_frame (fun a : fwd_acc => a.delta t) b
      (fun b a => for_loop (l.side * l.side).toNat (cell_body E l state b) a)
      (train_init l)
      (fun b2 hb2 u => houter b2 (by omega) (by omega) u)
    have h3 : (acc_before E l state b i).delta t = (train_init l).delta t := h1.trans h2
    rw [h3]
    obtain ⟨x, hx, -, hxt⟩ := hown
    obtain ⟨r0, r1⟩ := field_offset_range l hcoords hid hn hclasses b x hx
    rw [hxt] at r0 r1
    have hL : 0 ≤ l.side * l.side := mul_self_nonneg l.side
    have hin0 : 0 ≤ l.inputs := by
      rw [hid, hcoords]
      exact mul_nonneg hL (by nlinarith)
    have hb0 : (0 : Int) ≤ b := Int.ofNat_nonneg b
    have hlow : 0 ≤ (b : Int) * l.inputs := mul_nonneg hb0 hin0
    have hhigh : ((b : Int) + 1) * l.inputs ≤ l.inputs * l.batch := by
      have : (b : Int) + 1 ≤ l.batch := by omega
      nlinarith [mul_le_mul_of_nonneg_right this hin0]
    show (if 0 ≤ t ∧ t < l.inputs * l.batch then (0 : ℚ) else l.delta t) = 0
    rw [if_pos ⟨by omega, by omega⟩]

theorem forward_delta_eq (E : collab) (l : detection_layer) (state : network_state)
    (htrain : state.train ≠ 0) :
    (forward_detection_layer E l state).delta
      = (train_loops E { l with output := forward_output E l state } state).delta := by
  simp only [forward_detection_layer, if_pos htrain]

/-- The gradient buffer after the training walk over a layer with `coords = 4` that satisfies
the construction identity, when every object-bearing cell gets an index within `[0, n)` at
line 176. For cell `i` of batch element `b`: the objectness entry of predictor `k` holds the
object term if the cell is object-bearing and `k` is its responsible predictor, and the
no-object term otherwise; the entry of class `j` holds the classification term if the cell is
object-bearing and `0` otherwise; box field `f` of predictor `k` holds the coordinate term if
the cell is object-bearing and `k` is its responsible predictor, and `0` otherwise. -/
theorem train_loops_gradient (E : collab) (l : detection_layer) (state : network_state)
    (hcoords : l.coords = 4)
    (hid : l.inputs = l.side * l.side * ((1 + l.coords) * l.n + l.classes))
    (hn : 0 ≤ l.n) (hclasses : 0 ≤ l.classes) (hvalid : indices_valid E l state)
    (b i : Nat) (hb : (b : Int) < l.batch) (hi : (i : Int) < l.side * l.side) :
    (∀ k : Nat, (k : Int) < l.n →
        (train_loops E l state).delta (train_obj_offset l b i k)
          = if is_object l state b i ∧ responsible E l state b i = k then
              (if l.rescore ≠ 0 then
                l.object_scale
                  * (E.box_iou (decode_box l (b * l.inputs) (l.side * l.side) i k)
                      (truth_box l state (truth_offset l b i))
                    - l.output (train_obj_offset l b i k))
              else l.object_scale * (1 - l.output (train_obj_offset l b i k)))
            else l.noobject_scale * (0 - l.output (train_obj_offset l b i k))) ∧
      (∀ j : Nat, (j : Int) < l.classes →
        (train_loops E l state).delta (train_class_offset l b i j)
          = if is_object l state b i then
              l.class_scale
                * (state.truth (truth_offset l b i + 1 + j)
                  - l.output (train_class_offset l b i j))
            else 0) ∧
      (∀ k f : Nat, (k : Int) < l.n → f < 4 →
        (train_loops E l state).delta (train_box_offset l b i k f)
          = if is_object l state b i ∧ responsible E l state b i = k then
              l.coord_scale
                * (coord_target E l state b i f - l.output (train_box_offset l b i k f))
            else 0) := by
  have hv : is_object l state b i →
      0 ≤ cell_best_index E l state (b * l.inputs) (l.side * l.side) i (truth_offset l b i)
          (acc_before E l state b i).rand_calls ∧
      cell_best_index E l state (b * l.inputs) (l.side * l.side) i (truth_offset l b i)
          (acc_before E l state b i).rand_calls < l.n :=
    fun hobj => hvalid b i hb hi hobj _
  refine ⟨?_, ?_, ?_⟩
  · intro k hk
    obtain ⟨h1, -⟩ := train_loops_delta_at E l state hcoords hid hn hclasses hvalid b i hb hi
      (train_obj_offset l b i k) ⟨.obj i k, ⟨hi, hk⟩, rfl, rfl⟩
    rw [h1, cell_body_at_obj E l state hcoords hid hn hclasses b i _ hi hv k hk]
    rfl
  · intro j hj
    obtain ⟨h1, h2⟩ := train_loops_delta_at E l state hcoords hid hn hclasses hvalid b i hb hi
      (train_class_offset l b i j) ⟨.cls i j, ⟨hi, hj⟩, rfl, rfl⟩
    rw [h1, cell_body_at_cls E l state hcoords hid hn hclasses b i _ hi hv j hj, h2]
  · intro k f hk hf
    obtain ⟨h1, h2⟩ := train_loops_delta_at E l state hcoords hid hn hclasses hvalid b i hb hi
      (train_box_offset l b i k f) ⟨.coord i k f, ⟨hi, hk, hf⟩, rfl, rfl⟩
    rw [h1, cell_body_at_coord E l state hcoords hid hn hclasses b i _ hi hv k f hk hf, h2]
    rfl

/-! ## The previous contents of the gradient buffer -/

theorem for_loop_rel {σ : Type} (R : σ → σ → Prop) (N : Nat) (body : Nat → σ → σ) (s s2 : σ)
    (hstep : ∀ k u v, R u v → R (body k u) (body k v)) (h : R s s2) :
    R (for_loop N body s) (for_loop N body s2) := by
  induction N with
  | zero => exact h
  | succ m ih => exact hstep m _ _ ih

theorem cell_body_rand_calls (E : collab) (l : detection_layer) (state : network_state)
    (b : Int) (i : Nat) (a : fwd_acc) :
    (cell_body E l state b i a).rand_calls
      = if is_object l state b i ∧ random_active l state then a.rand_calls + 1
        else a.rand_calls := by
  by_cases hflag : float_to_int (state.truth (truth_offset l b i)) = 0
  · have hno : ¬ is_object l state b i := fun h => h hflag
    rw [if_neg (fun h => hno h.1)]
    exact (cell_body_object_free E l state b i a hflag).2.1
  · obtain ⟨hc1, hr1, -⟩ := noobj_loop_fields l (b * l.inputs) (l.side * l.side) i l.n.toNat a
    obtain ⟨hc2, hr2⟩ := class_loop_fields l state (b * l.inputs + i * l.classes)
      (truth_offset l b i) l.classes.toNat
      (for_loop l.n.toNat (noobj_body l (b * l.inputs) (l.side * l.side) i) a)
    have hyes : is_object l state b i := hflag
    unfold truth_offset at hflag hr2
    unfold cell_body
    simp only [if_neg hflag]
    by_cases hra : random_active l state
    · simp only [if_pos hra]
      rw [if_pos (show is_object l state b i ∧ random_active l state from ⟨hyes, hra⟩)]
      unfold matched_body
      simp only []
      rw [hr2, hr1]
    · simp only [if_neg hra]
      rw [if_neg (fun h : is_object l state b i ∧ random_active l state => hra h.2)]
      unfold matched_body
      simp only []
      rw [hr2, hr1]

/-- Two accumulators that agree on the entry at `t` and on the number of calls of `rand()`
still do after the iteration of a cell. -/
theorem cell_body_agree (E : collab) (l : detection_layer) (state : network_state)
    (b : Int) (i : Nat) (a a2 : fwd_acc) (t : Int)
    (hd : a.delta t = a2.delta t) (hr : a.rand_calls = a2.rand_calls) :
    (cell_body E l state b i a).delta t = (cell_body E l state b i a2).delta t ∧
      (cell_body E l state b i a).rand_calls = (cell_body E l state b i a2).rand_calls := by
  refine ⟨?_, by rw [cell_body_rand_calls, cell_body_rand_calls, hr]⟩
  have hnoobj : (for_loop l.n.toNat (noobj_body l (b * l.inputs) (l.side * l.side) i) a).delta t
      = (for_loop l.n.toNat (noobj_body l (b * l.inputs) (l.side * l.side) i) a2).delta t := by
    rw [noobj_loop_delta, noobj_loop_delta, hd]
  by_cases hflag : float_to_int (state.truth (truth_offset l b i)) = 0
  · have hcell : ∀ u : fwd_acc, cell_body E l state b i u
        = for_loop l.n.toNat (noobj_body l (b * l.inputs) (l.side * l.side) i) u := by
      intro u
      unfold truth_offset at hflag
      unfold cell_body
      simp only [hflag, if_true]
    rw [hcell, hcell]
    exact hnoobj
  · obtain ⟨a3, hd3, -, hcb⟩ := cell_body_object E l state b i a hflag
    obtain ⟨a4, hd4, -, hcb2⟩ := cell_body_object E l state b i a2 hflag
    have hclass : a3.delta t = a4.delta t := by
      rw [hd3, hd4]
      by_cases hex : ∃ j : Nat, j < l.classes.toNat ∧ t = b * l.inputs + i * l.classes + j
      · obtain ⟨j, hj, hjt⟩ := hex
        rw [hjt, (class_loop_delta l state _ _ _ _).1 j hj,
          (class_loop_delta l state _ _ _ _).1 j hj]
      · have hne : ∀ j : Nat, j < l.classes.toNat → t ≠ b * l.inputs + i * l.classes + j :=
          fun j hj heq => hex ⟨j, hj, heq⟩
        rw [(class_loop_delta l state _ _ _ _).2 t hne,
          (class_loop_delta l state _ _ _ _).2 t hne]
        exact hnoobj
    rw [hcb, hcb2, matched_body_delta, matched_body_delta, hr, hclass]

theorem cell_body_delta_irrelevant (E : collab) (l : detection_layer) (state : network_state)
    (d : Int → ℚ) (b : Int) (i : Nat) (a : fwd_acc) :
    cell_body E { l with delta := d } state b i a = cell_body E l state b i a := rfl

theorem forward_output_delta_irrelevant (E : collab) (l : detection_layer)
    (state : network_state) (d : Int → ℚ) :
    forward_output E { l with delta := d } state = forward_output E l state := rfl

/-- On the entries that line 80 zeroes, the training walk does not depend on the previous
contents of the gradient buffer. -/
theorem train_loops_delta_irrelevant (E : collab) (l : detection_layer) (state : network_state)
    (d : Int → ℚ) (t : Int) (ht0 : 0 ≤ t) (ht : t < l.inputs * l.batch) :
    (train_loops E { l with delta := d } state).delta t = (train_loops E l state).delta t := by
  rw [train_loops_eq, train_loops_eq]
  have hbody : (fun (b : Nat) (a : fwd_acc) =>
        for_loop (l.side * l.side).toNat (cell_body E { l with delta := d } state b) a)
      = (fun (b : Nat) (a : fwd_acc) =>
        for_loop (l.side * l.side).toNat (cell_body E l state b) a) := by
    funext b a
    congr 1
  show (for_loop l.batch.toNat
      (fun (b : Nat) (a : fwd_acc) =>
        for_loop (l.side * l.side).toNat (cell_body E { l with delta := d } state b) a)
      (train_init { l with delta := d })).delta t = _
  rw [hbody]
  have key := for_loop_rel
    (fun u v : fwd_acc => u.delta t = v.delta t ∧ u.rand_calls = v.rand_calls)
    l.batch.toNat
    (fun b a => for_loop (l.side * l.side).toNat (cell_body E l state b) a)
    (train_init { l with delta := d }) (train_init l)
    (fun b u v huv => for_loop_rel
      (fun u v : fwd_acc => u.delta t = v.delta t ∧ u.rand_calls = v.rand_calls) _ _ u v
      (fun i u2 v2 h2 => cell_body_agree E l state b i u2 v2 t h2.1 h2.2) huv)
    (by
      constructor
      · show (if 0 ≤ t ∧ t < l.inputs * l.batch then (0 : ℚ) else d t)
          = (if 0 ≤ t ∧ t < l.inputs * l.batch then (0 : ℚ) else l.delta t)
        rw [if_pos ⟨ht0, ht⟩, if_pos ⟨ht0, ht⟩]
      · rfl)
  exact key.1

/-- The gradient tensor that a training call leaves does not depend on what the buffer held
before the call: on the `inputs*batch` entries that line 80 zeroes, calls that differ only
in the previous contents of `l.delta` agree. -/
theorem forward_delta_independent_of_previous (E : collab) (l : detection_layer)
    (state : network_state) (d : Int → ℚ) (htrain : state.train ≠ 0)
    (t : Int) (ht0 : 0 ≤ t) (ht : t < l.inputs * l.batch) :
    (forward_detection_layer E { l with delta := d } state).delta t
      = (forward_detection_layer E l state).delta t := by
  rw [forward_delta_eq E _ state htrain, forward_delta_eq E _ state htrain]
  exact train_loops_delta_irrelevant E { l with output := forward_output E l state } state d t
    ht0 ht



end Darknet
